import Mathlib

/-!
AI-Resume-Analyzer-BE: a shallow embedding of the resume service.

The development follows the layering of the repository:

* JavaScript strings and numbers (the library operations the source calls);
* `services/aiService.js`   : the heuristic provider and the provider dispatch;
* `services/pdfService.js`  : text extraction;
* `models/Resume.js`        : the record and its schema defaults;
* `middleware/errorHandler.js`, `utils/AppError.js` : error normalisation;
* `controllers/resumeController.js` : the five operations, as functions on an
  explicit world (the collection, the id generator, the external state).

Strings are Lean strings (sequences of Unicode scalar values); `length` counts
UTF-16 code units, as JavaScript does.
-/

namespace ResumeAnalyzer

/-! ## JavaScript strings -/

/-- The characters matched by `\s` and removed by `String.prototype.trim`:
the ECMAScript WhiteSpace and LineTerminator code points. -/
def isWhiteSpace (c : Char) : Bool :=
  let n := c.toNat
  n == 0x09 || n == 0x0A || n == 0x0B || n == 0x0C || n == 0x0D || n == 0x20 ||
  n == 0xA0 || n == 0x1680 || (0x2000 ≤ n && n ≤ 0x200A) || n == 0x2028 ||
  n == 0x2029 || n == 0x202F || n == 0x205F || n == 0x3000 || n == 0xFEFF

/-- The number of UTF-16 code units of one character. -/
def codeUnits (c : Char) : Nat := if c.toNat < 0x10000 then 1 else 2

/-- The value of `s.length`: the number of UTF-16 code units. -/
def jsLength (s : String) : Nat := (s.data.map codeUnits).sum

/-- The characters of `s.trim()`. -/
def trimChars (l : List Char) : List Char :=
  ((l.dropWhile isWhiteSpace).reverse.dropWhile isWhiteSpace).reverse

/-- The value of `s.trim()`. -/
def trim (s : String) : String := ⟨trimChars s.data⟩

/-- The text starts with a whitespace character. -/
def startsWithWhiteSpace : List Char → Bool
  | [] => false
  | d :: _ => isWhiteSpace d

/-- Put a character in front of the first piece. -/
def pushChar (c : Char) : List (List Char) → List (List Char)
  | [] => [[c]]
  | t :: ts => (c :: t) :: ts

/-- The pieces of `s.split(/\s+/)`: the text is cut at every maximal run of
whitespace; a run at the very start leaves an empty first piece, a run at the
very end an empty last piece, and the empty text gives the single piece `""`. -/
def splitWhitespace : List Char → List (List Char)
  | [] => [[]]
  | c :: cs =>
    if isWhiteSpace c then
      if startsWithWhiteSpace cs then splitWhitespace cs else [] :: splitWhitespace cs
    else pushChar c (splitWhitespace cs)

/-- The value of `hay.includes(needle)`. -/
def includes (hay needle : String) : Bool :=
  hay.data.tails.any (fun t => needle.data.isPrefixOf t)

/-- The value of `/a1|a2|.../i.test(s)` for alternatives that are literal
lower-case ASCII texts. Without the `u` flag the `i` flag compares code units
after canonicalisation, which never identifies a non-ASCII code unit with an
ASCII one, so a letter of the pattern matches exactly its two ASCII cases. -/
def testI (alternatives : List String) (s : String) : Bool :=
  alternatives.any (fun a => includes ⟨s.data.map Char.toLower⟩ a)

/-- ASCII case folding of a whole text; it agrees with `toLowerCase` on ASCII
texts and is used where a concrete case mapping is needed. -/
def asciiLower (s : String) : String := ⟨s.data.map Char.toLower⟩

/-! ## services/aiService.js: the heuristic provider -/

def TECH_KW : List String :=
  ["javascript", "python", "java", "react", "node", "sql", "aws", "docker", "git"]

def SOFT_KW : List String :=
  ["leadership", "communication", "teamwork", "problem-solving"]

/-- The `sections` object of an analysis. -/
structure Sections where
  hasContact : Bool
  hasSummary : Bool
  hasExperience : Bool
  hasEducation : Bool
  hasSkills : Bool
  deriving DecidableEq, Repr

/-- The object literal returned by `analyzeWithMock`. -/
structure Analysis where
  overallScore : Nat
  experienceLevel : String
  strengths : List String
  weaknesses : List String
  suggestions : List String
  keywords : List String
  sections : Sections
  analyzedAt : Nat
  deriving DecidableEq, Repr

/-- The keywords found: `[...TECH_KW, ...SOFT_KW].filter((k) => lower.includes(k))`. -/
def mockKeywords (lower : String) : List String :=
  (TECH_KW ++ SOFT_KW).filter (fun k => includes lower k)

/-- The five section tests of `analyzeWithMock`. -/
def mockSections (resumeText : String) : Sections :=
  { hasContact := testI ["email", "phone", "@", "+"] resumeText
    hasSummary := testI ["summary", "objective", "profile"] resumeText
    hasExperience := testI ["experience", "employment", "work history"] resumeText
    hasEducation := testI ["education", "degree", "university", "bachelor"] resumeText
    hasSkills := testI ["skills", "technologies", "competencies"] resumeText }

/-- The value of `resumeText.split(/\s+/).length`. -/
def mockWordCount (resumeText : String) : Nat :=
  (splitWhitespace resumeText.data).length

/-- The running `score` of `analyzeWithMock` after its seven additions. -/
def mockScore (sections : Sections) (keywords : List String) (wordCount : Nat) : Nat :=
  let score := 0
  let score := score + (if sections.hasContact then 8 else 0)
  let score := score + (if sections.hasSummary then 8 else 0)
  let score := score + (if sections.hasExperience then 10 else 0)
  let score := score + (if sections.hasEducation then 7 else 0)
  let score := score + (if sections.hasSkills then 7 else 0)
  let score := score + min 30 (keywords.length * 3)
  let score := score + (if wordCount ≥ 300 ∧ wordCount ≤ 900 then 30 else 15)
  score

/-- The heuristic provider `analyzeWithMock`. The case mapping `toLowerCase`
(Unicode tables of the runtime) and the clock reading `now` are parameters. -/
def analyzeWithMock (toLowerCase : String → String) (now : Nat) (resumeText : String) :
    Analysis :=
  let lower := toLowerCase resumeText
  let keywords := mockKeywords lower
  let sections := mockSections resumeText
  let wordCount := mockWordCount resumeText
  let score := mockScore sections keywords wordCount
  let strengths : List String := []
  let weaknesses : List String := []
  let suggestions : List String := []
  let (strengths, weaknesses) :=
    if sections.hasContact then (strengths ++ ["Contact information present"], weaknesses)
    else (strengths, weaknesses ++ ["Missing contact info"])
  let (strengths, suggestions) :=
    if sections.hasExperience then (strengths ++ ["Work experience documented"], suggestions)
    else (strengths, suggestions ++ ["Add work experience section"])
  let (strengths, suggestions) :=
    if keywords.length ≥ 5 then
      (strengths ++ [toString keywords.length ++ " relevant keywords found"], suggestions)
    else (strengths, suggestions ++ ["Add more industry keywords"])
  { overallScore := min 100 score
    experienceLevel :=
      if testI ["senior", "lead"] lower then "senior"
      else if testI ["entry", "junior"] lower then "entry"
      else "mid"
    strengths := strengths
    weaknesses := weaknesses
    suggestions := suggestions
    keywords := keywords.eraseDups
    sections := sections
    analyzedAt := now }

/-! ### Reference notions used to state the scoring contract -/

/-- The whitespace-delimited non-empty tokens of a text. -/
def wordTokens (s : String) : List (List Char) :=
  (s.data.splitOnP isWhiteSpace).filter (fun t => !t.isEmpty)

/-- The number of distinct vocabulary keywords that occur in a text. -/
def distinctKeywordCount (lower : String) : Nat :=
  ((TECH_KW ++ SOFT_KW).toFinset.filter (fun k => includes lower k = true)).card

/-- A text has no leading and no trailing whitespace. -/
def noOuterWhitespace (s : String) : Prop :=
  s.data.head?.map isWhiteSpace ≠ some true ∧ s.data.getLast?.map isWhiteSpace ≠ some true

instance (s : String) : Decidable (noOuterWhitespace s) := by
  unfold noOuterWhitespace; infer_instance

/-- The number contributed by a flag: `[b]`. -/
def flag (b : Bool) : Nat := if b then 1 else 0

/-! ## JavaScript numbers and values -/

/-- A JavaScript number: a finite value, `NaN` or an infinity. Finite values
are exact rationals; the source only forms integers below `2^53` and their
quotients, on which IEEE arithmetic agrees with the exact one. Signed zeros are
not distinguished. -/
inductive JsNumber where
  | nan
  | posInf
  | negInf
  | fin (q : ℚ)
  deriving DecidableEq

namespace JsNumber

/-- The value of `Math.max(a, b)`. -/
def max : JsNumber → JsNumber → JsNumber
  | nan, _ => nan
  | _, nan => nan
  | posInf, _ => posInf
  | _, posInf => posInf
  | negInf, b => b
  | a, negInf => a
  | fin a, fin b => fin (if a ≤ b then b else a)

/-- The value of `Math.min(a, b)`. -/
def min : JsNumber → JsNumber → JsNumber
  | nan, _ => nan
  | _, nan => nan
  | negInf, _ => negInf
  | _, negInf => negInf
  | posInf, b => b
  | a, posInf => a
  | fin a, fin b => fin (if a ≤ b then a else b)

/-- The value of `a - b`. -/
def sub : JsNumber → JsNumber → JsNumber
  | nan, _ => nan
  | _, nan => nan
  | posInf, posInf => nan
  | negInf, negInf => nan
  | posInf, _ => posInf
  | negInf, _ => negInf
  | fin _, posInf => negInf
  | fin _, negInf => posInf
  | fin a, fin b => fin (a - b)

/-- The infinity of the given sign. -/
def infinity (positive : Bool) : JsNumber := if positive then posInf else negInf

/-- The value of `a * b`. -/
def mul : JsNumber → JsNumber → JsNumber
  | nan, _ => nan
  | _, nan => nan
  | posInf, posInf => posInf
  | negInf, negInf => posInf
  | posInf, negInf => negInf
  | negInf, posInf => negInf
  | posInf, fin b => if b = 0 then nan else infinity (decide (0 < b))
  | negInf, fin b => if b = 0 then nan else infinity (decide (b < 0))
  | fin a, posInf => if a = 0 then nan else infinity (decide (0 < a))
  | fin a, negInf => if a = 0 then nan else infinity (decide (a < 0))
  | fin a, fin b => fin (a * b)

/-- The value of `a / b`. -/
def div : JsNumber → JsNumber → JsNumber
  | nan, _ => nan
  | _, nan => nan
  | fin _, posInf => fin 0
  | fin _, negInf => fin 0
  | posInf, fin b => infinity (decide (0 ≤ b))
  | negInf, fin b => infinity (decide (b < 0))
  | posInf, _ => nan
  | negInf, _ => nan
  | fin a, fin b =>
    if b = 0 then (if a = 0 then nan else infinity (decide (0 < a))) else fin (a / b)

/-- The value of `Math.ceil(a)`. -/
def ceil : JsNumber → JsNumber
  | fin a => fin ⌈a⌉
  | a => a

/-- The number is an integer that is at least `n`. -/
def IsIntegerAtLeast (n : ℤ) : JsNumber → Prop
  | fin q => ∃ z : ℤ, q = z ∧ n ≤ z
  | _ => False

/-- The number is an integer between `lo` and `hi`. -/
def IsIntegerBetween (lo hi : ℤ) : JsNumber → Prop
  | fin q => ∃ z : ℤ, q = z ∧ lo ≤ z ∧ z ≤ hi
  | _ => False

end JsNumber

/-- The value of a run of decimal digits. -/
def digitsValue (ds : List Char) : Nat :=
  ds.foldl (fun acc d => 10 * acc + (d.toNat - '0'.toNat)) 0

/-- The value of `parseInt(s, 10)`: leading whitespace is skipped, one sign is
read, then the longest run of decimal digits; no digit gives `NaN`. -/
def parseInt (s : String) : JsNumber :=
  let S := s.data.dropWhile isWhiteSpace
  let (negative, S) :=
    match S with
    | '-' :: rest => (true, rest)
    | '+' :: rest => (false, rest)
    | _ => (false, S)
  let digits := S.takeWhile Char.isDigit
  if digits.isEmpty then JsNumber.nan
  else if negative then JsNumber.fin (-(digitsValue digits : ℚ))
  else JsNumber.fin (digitsValue digits : ℚ)

/-- A JavaScript value as the handlers build and send it: the JSON values, and
the dates and object ids of a stored document before serialisation. -/
inductive JVal where
  | null
  | bool (b : Bool)
  | num (n : JsNumber)
  | str (s : String)
  | date (ms : Nat)
  | objectId (n : Nat)
  | arr (items : List JVal)
  | obj (fields : List (String × JVal))

namespace JVal

/-- The fields of an object (none for the other values). -/
def fields : JVal → List (String × JVal)
  | obj fs => fs
  | _ => []

/-- The value of `v[key]` for an object; `none` stands for `undefined`. -/
def get? (v : JVal) (key : String) : Option JVal :=
  (v.fields.find? (fun kv => kv.1 == key)).map Prod.snd

/-- The object has an own property `key`. -/
def hasKey (v : JVal) (key : String) : Bool :=
  v.fields.any (fun kv => kv.1 == key)

/-- The effect of `delete v[key]`. -/
def delete (v : JVal) (key : String) : JVal :=
  match v with
  | obj fs => obj (fs.filter (fun kv => kv.1 != key))
  | other => other

/-- The effect of `v[key] = x` on an object: the property keeps its place when
it exists and is appended otherwise. -/
def set (v : JVal) (key : String) (x : JVal) : JVal :=
  match v with
  | obj fs =>
    if fs.any (fun kv => kv.1 == key) then
      obj (fs.map (fun kv => if kv.1 == key then (key, x) else kv))
    else obj (fs ++ [(key, x)])
  | other => other

/-- JavaScript truthiness of a value. -/
def truthy : JVal → Bool
  | null => false
  | bool b => b
  | num (JsNumber.fin q) => decide (q ≠ 0)
  | num JsNumber.nan => false
  | num _ => true
  | str s => !s.isEmpty
  | _ => true

/-- An optional text as a value (`null` when absent). -/
def ofOptString : Option String → JVal
  | none => null
  | some s => str s

end JVal

/-! ## utils/AppError.js and middleware/errorHandler.js -/

/-- The `code` property of an error: a number (driver errors) or a text (upload errors). -/
inductive ErrCode where
  | num (n : Nat)
  | str (s : String)
  deriving DecidableEq, Repr

/-- A thrown error object, with the properties the handlers read. `errors`
holds the messages of the entries of a validation error, `keyValue` the keys
of a duplicate-key error, `path` and `value` the printed properties of a cast
error. -/
structure JsError where
  name : String := "Error"
  message : String
  statusCode : Option Nat := none
  status : Option String := none
  isOperational : Bool := false
  isMulterError : Bool := false
  code : Option ErrCode := none
  errors : List String := []
  keyValue : List String := []
  path : String := "undefined"
  value : String := "undefined"
  stack : String := ""
  deriving DecidableEq, Repr

/-- The constructor of `AppError`. -/
def AppError (message : String) (statusCode : Nat) : JsError :=
  { message := message
    statusCode := some statusCode
    status := some (if (toString statusCode).data.head? = some '4' then "fail" else "error")
    isOperational := true }

/-- The process configuration read from the environment. -/
structure Config where
  NODE_ENV : Option String := none
  MAX_FILE_SIZE_MB : Option String := none
  AI_PROVIDER : Option String := none

/-- The value of `a || b` on optional texts (absent and empty are falsy). -/
def orElse (a : Option String) (b : String) : String :=
  match a with
  | some s => if s.isEmpty then b else s
  | none => b

/-- An HTTP response: the status code and the JSON body (absent for `send()`). -/
structure Response where
  statusCode : Nat
  body : Option JVal

/-- The override computed by `handleMulterError`, when the error is an upload error. -/
def handleMulterError (cfg : Config) (err : JsError) : Option (String × Nat) :=
  if err.isMulterError then
    match err.code with
    | some (ErrCode.str "LIMIT_FILE_SIZE") =>
      some ("File too large. Maximum size is " ++ orElse cfg.MAX_FILE_SIZE_MB "5" ++ "MB.", 413)
    | some (ErrCode.str "LIMIT_FILE_COUNT") =>
      some ("Too many files. Upload one file at a time.", 400)
    | some (ErrCode.str "LIMIT_UNEXPECTED_FILE") =>
      some ("Unexpected field name. Use \"resume\" as the form field name.", 400)
    | _ => some ("Upload error: " ++ err.message, 400)
  else none

def handleValidationError (err : JsError) : String × Nat :=
  ("Validation failed: " ++ ". ".intercalate err.errors, 400)

def handleDuplicateKeyError (err : JsError) : String × Nat :=
  let field := err.keyValue.head?.getD "undefined"
  ("Duplicate value for field: " ++ field ++ ". Please use another value.", 409)

def handleCastError (err : JsError) : String × Nat :=
  ("Invalid value for field \"" ++ err.path ++ "\": " ++ err.value, 400)

/-- The message and status code chosen by `globalErrorHandler`. -/
def errorMessageAndStatus (cfg : Config) (err : JsError) : String × Nat :=
  let statusCode := match err.statusCode with
    | some c => if c = 0 then 500 else c
    | none => 500
  let message := if err.message.isEmpty then "An unexpected error occurred." else err.message
  match handleMulterError cfg err with
  | some override => override
  | none =>
    if err.name = "ValidationError" then handleValidationError err
    else if err.code = some (ErrCode.num 11000) then handleDuplicateKeyError err
    else if err.name = "CastError" then handleCastError err
    else (message, statusCode)

/-- The response sent by `globalErrorHandler`. -/
def globalErrorHandler (cfg : Config) (err : JsError) : Response :=
  let (message, statusCode) := errorMessageAndStatus cfg err
  let response : List (String × JVal) :=
    [("status", JVal.str (if statusCode ≥ 500 then "error" else "fail")),
     ("message", JVal.str message)]
  let response :=
    if cfg.NODE_ENV = some "development" then response ++ [("stack", JVal.str err.stack)]
    else response
  { statusCode := statusCode, body := some (JVal.obj response) }

/-- What the client receives: the handler's own response, or the response of
the global error handler for the error the handler passed on. -/
def respond (cfg : Config) (outcome : Except JsError Response) : Response :=
  match outcome with
  | .ok r => r
  | .error e => globalErrorHandler cfg e

/-! ## services/pdfService.js -/

/-- The result of the PDF parser, with the two properties the service reads. -/
structure Parsed where
  text : Option String
  numpages : Option Nat

/-- The result of `extractTextFromPDF`. -/
structure Extracted where
  text : String
  pageCount : Nat
  wordCount : Nat
  deriving DecidableEq, Repr

/-- The file system and the PDF parser, as seen from an external state `σ`. -/
structure FileSystem (σ : Type) where
  existsSync : σ → String → Bool
  readFileSync : σ → String → Except JsError (List UInt8)
  pdfParse : List UInt8 → Except JsError Parsed
  unlink : String → σ → σ

/-- The service `extractTextFromPDF`. -/
def extractTextFromPDF {σ : Type} (fs : FileSystem σ) (s : σ) (filePath : String) :
    Except JsError Extracted :=
  if !fs.existsSync s filePath then
    .error (AppError "PDF file not found on disk." 404)
  else
    match fs.readFileSync s filePath with
    | .error _ => .error (AppError "Failed to read uploaded PDF file." 500)
    | .ok dataBuffer =>
      match fs.pdfParse dataBuffer with
      | .error _ =>
        .error (AppError
          "Failed to parse PDF. The file may be corrupted, encrypted, or unsupported." 422)
      | .ok parsed =>
        let text := trim (orElse parsed.text "")
        if text.isEmpty || jsLength text < 50 then
          .error (AppError
            ("PDF appears to contain no extractable text. It may be a scanned image-only PDF. "
              ++ "Please upload a text-based PDF.") 422)
        else
          let wordCount := ((splitWhitespace text.data).filter (fun w => w.length > 0)).length
          .ok { text := text, pageCount := parsed.numpages.getD 0, wordCount := wordCount }

/-! ## models/Resume.js -/

/-- The `status` enumeration of the schema. -/
inductive Status where
  | uploaded
  | processed
  | analyzed
  | failed
  deriving DecidableEq, Repr

def Status.toString : Status → String
  | uploaded => "uploaded"
  | processed => "processed"
  | analyzed => "analyzed"
  | failed => "failed"

/-- A stored analysis sub-document, shaped by `analysisResultSchema`. -/
structure AnalysisDoc where
  overallScore : Option JsNumber
  strengths : List String
  weaknesses : List String
  suggestions : List String
  keywords : List String
  experienceLevel : String
  sections : Sections
  analyzedAt : Nat
  deriving DecidableEq

/-- A stored resume document, shaped by `resumeSchema` with its timestamps. -/
structure Resume where
  _id : Nat
  filename : String
  originalName : String
  filePath : String
  fileSizeBytes : Nat
  mimeType : String
  extractedText : String
  wordCount : Nat
  pageCount : Nat
  analysisResult : Option AnalysisDoc
  status : Status
  errorMessage : Option String
  createdAt : Nat
  updatedAt : Nat
  deriving DecidableEq

def Sections.toJVal (s : Sections) : JVal :=
  JVal.obj [("hasContact", JVal.bool s.hasContact), ("hasSummary", JVal.bool s.hasSummary),
    ("hasExperience", JVal.bool s.hasExperience), ("hasEducation", JVal.bool s.hasEducation),
    ("hasSkills", JVal.bool s.hasSkills)]

def stringsToJVal (l : List String) : JVal := JVal.arr (l.map JVal.str)

/-- The object returned by the heuristic provider, as a value. -/
def Analysis.toJVal (a : Analysis) : JVal :=
  JVal.obj [("overallScore", JVal.num (JsNumber.fin a.overallScore)),
    ("experienceLevel", JVal.str a.experienceLevel),
    ("strengths", stringsToJVal a.strengths), ("weaknesses", stringsToJVal a.weaknesses),
    ("suggestions", stringsToJVal a.suggestions), ("keywords", stringsToJVal a.keywords),
    ("sections", a.sections.toJVal), ("analyzedAt", JVal.date a.analyzedAt)]

def AnalysisDoc.toJVal (a : AnalysisDoc) : JVal :=
  JVal.obj ((match a.overallScore with
      | some n => [("overallScore", JVal.num n)]
      | none => []) ++
    [("strengths", stringsToJVal a.strengths), ("weaknesses", stringsToJVal a.weaknesses),
     ("suggestions", stringsToJVal a.suggestions), ("keywords", stringsToJVal a.keywords),
     ("experienceLevel", JVal.str a.experienceLevel), ("sections", a.sections.toJVal),
     ("analyzedAt", JVal.date a.analyzedAt)])

/-- The stored fields of a document, as `lean()` returns them. -/
def Resume.leanFields (r : Resume) : List (String × JVal) :=
  [("_id", JVal.objectId r._id), ("filename", JVal.str r.filename),
   ("originalName", JVal.str r.originalName), ("filePath", JVal.str r.filePath),
   ("fileSizeBytes", JVal.num (JsNumber.fin r.fileSizeBytes)),
   ("mimeType", JVal.str r.mimeType), ("extractedText", JVal.str r.extractedText),
   ("wordCount", JVal.num (JsNumber.fin r.wordCount)),
   ("pageCount", JVal.num (JsNumber.fin r.pageCount)),
   ("analysisResult", match r.analysisResult with
      | some a => a.toJVal
      | none => JVal.null),
   ("status", JVal.str r.status.toString), ("errorMessage", JVal.ofOptString r.errorMessage),
   ("createdAt", JVal.date r.createdAt), ("updatedAt", JVal.date r.updatedAt),
   ("__v", JVal.num (JsNumber.fin 0))]

/-- Two decimal digits, zero padded. -/
def pad2 (n : Nat) : String := if n < 10 then "0" ++ toString n else toString n

/-- The virtual `fileSizeKB`: `(fileSizeBytes / 1024).toFixed(2)`, the quotient
rounded to hundredths, halves upwards. -/
def Resume.fileSizeKB (r : Resume) : String :=
  let hundredths := (r.fileSizeBytes * 200 + 1024) / 2048
  toString (hundredths / 100) ++ "." ++ pad2 (hundredths % 100)

/-- The plain object of a document: `toObject()` with the virtuals. -/
def Resume.toObject (r : Resume) : JVal :=
  JVal.obj (r.leanFields ++
    [("fileSizeKB", JVal.str r.fileSizeKB), ("id", JVal.str (toString r._id))])

/-- The world of the service: the collection in insertion order, the next
object id, and the external state (files, clock, remote providers). -/
structure World (σ : Type) where
  resumes : List Resume
  nextId : Nat
  ext : σ

/-- The uploaded file object `req.file`. -/
structure UploadedFile where
  originalname : String
  filename : String
  path : String
  size : Nat
  mimetype : String
  deriving DecidableEq, Repr

/-- The providers that a request may call. -/
inductive ProviderName where
  | gemini
  | groq
  | ollama
  | mock
  deriving DecidableEq, Repr

/-- An observable effect of a handler. -/
inductive Event where
  | created (doc : Resume)
  | updated (before after : Resume)
  | deleted (doc : Resume)
  | providerCall (provider : ProviderName) (text : String)
  | unlinked (path : String)
  deriving DecidableEq

/-- The event is a write to the collection. -/
def Event.isWrite : Event → Bool
  | created _ => true
  | updated _ _ => true
  | deleted _ => true
  | _ => false

/-- The event is a call of a provider. -/
def Event.isProviderCall : Event → Bool
  | providerCall _ _ => true
  | _ => false

/-- The event is a call of the given provider. -/
def Event.isCallOf (p : ProviderName) : Event → Bool
  | providerCall q _ => decide (q = p)
  | _ => false

/-- The messages of the failed `required` validators of `Resume.create`; the
two names are trimmed by the schema before they are checked. -/
def createValidationErrors (filename originalName filePath : String) : List String :=
  (if (trim filename).isEmpty then ["Filename is required"] else []) ++
  (if (trim originalName).isEmpty then ["Original filename is required"] else []) ++
  (if filePath.isEmpty then ["File path is required"] else [])

/-- The document built by `Resume.create(...)` in the upload handler: the
given fields, the schema defaults, the id and the timestamps. -/
def newDocument (now : Nat) (file : UploadedFile) (id : Nat) : Resume :=
  { _id := id
    filename := trim file.filename
    originalName := trim file.originalname
    filePath := file.path
    fileSizeBytes := file.size
    mimeType := file.mimetype
    extractedText := ""
    wordCount := 0
    pageCount := 0
    analysisResult := none
    status := Status.uploaded
    errorMessage := none
    createdAt := now
    updatedAt := now }

/-- The model call `Resume.create(...)` of the upload handler: the document is
validated, gets a fresh id and is appended to the collection. -/
def Resume.create {σ : Type} (now : Nat) (file : UploadedFile) (w : World σ) :
    Except JsError (Resume × World σ) :=
  let errors := createValidationErrors file.filename file.originalname file.path
  if errors.isEmpty then
    let doc := newDocument now file w.nextId
    .ok (doc, { w with resumes := w.resumes ++ [doc], nextId := w.nextId + 1 })
  else
    .error { name := "ValidationError"
             message := "Resume validation failed: " ++ ", ".intercalate errors
             errors := errors }

/-- The model call `Resume.findById(id)`. -/
def Resume.findById (resumes : List Resume) (id : Nat) : Option Resume :=
  resumes.find? (fun r => r._id == id)

/-- Replace the first document with the given id. -/
def replaceFirst (id : Nat) (doc : Resume) : List Resume → List Resume
  | [] => []
  | r :: rs => if r._id == id then doc :: rs else r :: replaceFirst id doc rs

/-- Remove the first document with the given id. -/
def removeFirst (id : Nat) : List Resume → List Resume
  | [] => []
  | r :: rs => if r._id == id then rs else r :: removeFirst id rs

/-- The model call `Resume.findByIdAndUpdate(id, update, { new: true })`: the
document found is changed by `update`, its `updatedAt` is refreshed, and the
pair of the old and the new document is returned (`none` when there is none). -/
def Resume.findByIdAndUpdate {σ : Type} (now : Nat) (id : Nat) (update : Resume → Resume)
    (w : World σ) : Option (Resume × Resume) × World σ :=
  match Resume.findById w.resumes id with
  | none => (none, w)
  | some before =>
    let after := { update before with updatedAt := now }
    (some (before, after), { w with resumes := replaceFirst id after w.resumes })

/-- The model call `Resume.findByIdAndDelete(id)`. -/
def Resume.findByIdAndDelete {σ : Type} (id : Nat) (w : World σ) :
    Option Resume × World σ :=
  match Resume.findById w.resumes id with
  | none => (none, w)
  | some doc => (some doc, { w with resumes := removeFirst id w.resumes })

/-! ## services/aiService.js: the provider dispatch -/

/-- A provider call: from the text and the external state to a result or a
thrown error, and the external state after the call. -/
abbrev Provider (σ : Type) := String → σ → Except JsError JVal × σ

/-- The four provider functions of the module. -/
structure Providers (σ : Type) where
  analyzeWithGemini : Provider σ
  analyzeWithGroq : Provider σ
  analyzeWithOllama : Provider σ
  analyzeWithMock : Provider σ

/-- The provider function of a name. -/
def Providers.get {σ : Type} (P : Providers σ) : ProviderName → Provider σ
  | .gemini => P.analyzeWithGemini
  | .groq => P.analyzeWithGroq
  | .ollama => P.analyzeWithOllama
  | .mock => P.analyzeWithMock

/-- The heuristic provider as a provider call: it never throws and leaves the
external state alone. -/
def heuristicProvider {σ : Type} (toLowerCase : String → String) (now : σ → Nat) :
    Provider σ :=
  fun resumeText s => (.ok (analyzeWithMock toLowerCase (now s) resumeText).toJVal, s)

/-- The module constant `AI_PROVIDER = process.env.AI_PROVIDER || "gemini"`. -/
def AI_PROVIDER (cfg : Config) : String := orElse cfg.AI_PROVIDER "gemini"

/-- The `switch (AI_PROVIDER.toLowerCase())` of `analyzeResume`. -/
def dispatch (lowered : String) : ProviderName :=
  if lowered = "gemini" then .gemini
  else if lowered = "groq" then .groq
  else if lowered = "ollama" then .ollama
  else .mock

/-- The statement `if (!result.analyzedAt) result.analyzedAt = new Date()`:
reading a property of `null` throws, and so does (in a module, which is strict
code) creating a property on a primitive; an array keeps its elements. -/
def stampAnalyzedAt (now : Nat) (result : JVal) : Except JsError JVal :=
  match result with
  | .null =>
    .error { name := "TypeError", message := "Cannot read properties of null" }
  | .obj fs =>
    match (JVal.obj fs).get? "analyzedAt" with
    | some v => if v.truthy then .ok (.obj fs) else .ok ((JVal.obj fs).set "analyzedAt" (.date now))
    | none => .ok ((JVal.obj fs).set "analyzedAt" (.date now))
  | .arr items => .ok (.arr items)
  | .date ms => .ok (.date ms)
  | .objectId n => .ok (.objectId n)
  | _ => .error { name := "TypeError", message := "Cannot create property 'analyzedAt'" }

/-- The outcome of the adapter: the result or the error thrown, the external
state afterwards and the provider calls made, in order. -/
structure AdapterRun (σ : Type) where
  outcome : Except JsError JVal
  ext : σ
  calls : List ProviderName

/-- The adapter `analyzeResume(resumeText, options)`. -/
def analyzeResume {σ : Type} (P : Providers σ) (cfg : Config)
    (toLowerCase : String → String) (now : σ → Nat)
    (resumeText : String) (_options : Option JVal) (s : σ) : AdapterRun σ :=
  let primary := dispatch (toLowerCase (AI_PROVIDER cfg))
  let (called, s1) := P.get primary resumeText s
  let attempt : Except JsError JVal :=
    match called with
    | .ok result => stampAnalyzedAt (now s1) result
    | .error error => .error error
  match attempt with
  | .ok result => { outcome := .ok result, ext := s1, calls := [primary] }
  | .error error =>
    if AI_PROVIDER cfg ≠ "mock" then
      let (fallback, s2) := P.analyzeWithMock resumeText s1
      { outcome := fallback, ext := s2, calls := [primary, .mock] }
    else { outcome := .error error, ext := s1, calls := [primary] }

/-! ## controllers/resumeController.js -/

/-- Everything outside the repository that the handlers use. -/
structure Env (σ : Type) where
  config : Config
  toLowerCase : String → String
  now : σ → Nat
  fs : FileSystem σ
  providers : Providers σ
  -- the cast of a provider result to the analysis sub-document, done by the
  -- object mapper when the update is applied
  castAnalysisResult : JVal → Except JsError AnalysisDoc
  -- the answer of the database to a `skip` or `limit` that is not a
  -- non-negative integer
  findInvalidPaging : JsNumber → JsNumber → Except JsError (List Resume)

/-- The run of a handler: what it responds or passes to `next`, the world
afterwards, and its observable effects in order. -/
structure Run (σ : Type) where
  outcome : Except JsError Response
  world : World σ
  events : List Event

/-- The helper `sanitizeResume`, applied to a document. -/
def sanitizeResume (resume : Resume) : JVal :=
  let obj := resume.toObject
  obj.delete "filePath"

/-- The error of reading a property of `null`. -/
def nullTypeError : JsError :=
  { name := "TypeError", message := "Cannot read properties of null" }

/-- The handler `uploadResume`; `file` is `req.file`. -/
def uploadResume {σ : Type} (env : Env σ) (file : Option UploadedFile) (w : World σ) :
    Run σ :=
  match file with
  | none => { outcome := .error (AppError "Please upload a PDF file." 400), world := w, events := [] }
  | some f =>
    match Resume.create (env.now w.ext) f w with
    | .error err => { outcome := .error err, world := w, events := [] }
    | .ok (resume, w1) =>
      match extractTextFromPDF env.fs w1.ext f.path with
      | .error err =>
        let (found, w2) :=
          Resume.findByIdAndUpdate (env.now w1.ext) resume._id
            (fun r => { r with status := Status.failed, errorMessage := some err.message }) w1
        { outcome := .error err
          world := w2
          events := Event.created resume ::
            (match found with
             | some (before, after) => [Event.updated before after]
             | none => []) }
      | .ok extracted =>
        let (found, w2) :=
          Resume.findByIdAndUpdate (env.now w1.ext) resume._id
            (fun r => { r with
              extractedText := extracted.text
              pageCount := extracted.pageCount
              wordCount := extracted.wordCount
              status := Status.processed }) w1
        match found with
        | none => { outcome := .error nullTypeError, world := w2, events := [Event.created resume] }
        | some (before, updated) =>
          { outcome := .ok
              { statusCode := 201
                body := some (JVal.obj
                  [("status", JVal.str "success"),
                   ("message", JVal.str "Resume uploaded and text extracted successfully."),
                   ("data", JVal.obj [("resume", sanitizeResume updated)])]) }
            world := w2
            events := [Event.created resume, Event.updated before updated] }

/-- The handler `analyzeResumeById`; `id` is `req.params.id` and
`jobDescription` is `req.body.jobDescription`. -/
def analyzeResumeById {σ : Type} (env : Env σ) (id : Nat) (jobDescription : Option JVal)
    (w : World σ) : Run σ :=
  match Resume.findById w.resumes id with
  | none =>
    { outcome := .error (AppError ("No resume found with ID: " ++ toString id) 404)
      world := w, events := [] }
  | some resume =>
    if resume.status = Status.failed then
      { outcome := .error
          (AppError "This resume failed to process and cannot be analyzed." 422)
        world := w, events := [] }
    else if resume.extractedText.isEmpty || jsLength (trim resume.extractedText) < 50 then
      { outcome := .error (AppError "Resume has insufficient text content for analysis." 422)
        world := w, events := [] }
    else
      let run := analyzeResume env.providers env.config env.toLowerCase env.now
        resume.extractedText jobDescription w.ext
      let calls := run.calls.map (fun p => Event.providerCall p resume.extractedText)
      let w1 : World σ := { w with ext := run.ext }
      match run.outcome with
      | .error err => { outcome := .error err, world := w1, events := calls }
      | .ok analysisResult =>
        match env.castAnalysisResult analysisResult with
        | .error err => { outcome := .error err, world := w1, events := calls }
        | .ok doc =>
          let (found, w2) :=
            Resume.findByIdAndUpdate (env.now w1.ext) id
              (fun r => { r with analysisResult := some doc, status := Status.analyzed }) w1
          match found with
          | none => { outcome := .error nullTypeError, world := w2, events := calls }
          | some (before, updated) =>
            { outcome := .ok
                { statusCode := 200
                  body := some (JVal.obj
                    [("status", JVal.str "success"),
                     ("message", JVal.str "Resume analyzed successfully."),
                     ("data", JVal.obj
                        [("resume", sanitizeResume updated), ("analysis", analysisResult)])]) }
              world := w2
              events := calls ++ [Event.updated before updated] }

/-- The `page` of `getAllResumes`: `Math.max(1, parseInt(req.query.page || '1', 10))`. -/
def pageOf (page : Option String) : JsNumber :=
  JsNumber.max (JsNumber.fin 1) (parseInt (orElse page "1"))

/-- The `limit` of `getAllResumes`:
`Math.min(50, Math.max(1, parseInt(req.query.limit || '10', 10)))`. -/
def limitOf (limit : Option String) : JsNumber :=
  JsNumber.min (JsNumber.fin 50) (JsNumber.max (JsNumber.fin 1) (parseInt (orElse limit "10")))

/-- The `totalPages` of `getAllResumes`: `Math.ceil(total / limit)`. -/
def totalPagesOf (total : Nat) (limit : JsNumber) : JsNumber :=
  JsNumber.ceil (JsNumber.div (JsNumber.fin total) limit)

/-- A number that is a natural number. -/
def JsNumber.toNat? : JsNumber → Option Nat
  | fin q => if q.den = 1 ∧ 0 ≤ q.num then some q.num.toNat else none
  | _ => none

/-- The query `Resume.find().sort({ createdAt: -1 }).skip(skip).limit(limit)`:
most recent first, documents of equal age in insertion order. -/
def findPage {σ : Type} (env : Env σ) (resumes : List Resume) (skip limit : JsNumber) :
    Except JsError (List Resume) :=
  match skip.toNat?, limit.toNat? with
  | some s, some l =>
    .ok (((resumes.insertionSort (fun a b => b.createdAt ≤ a.createdAt)).drop s).take l)
  | _, _ => env.findInvalidPaging skip limit

/-- The handler `getAllResumes`; `page` and `limit` are the two query values. -/
def getAllResumes {σ : Type} (env : Env σ) (page limit : Option String) (w : World σ) :
    Run σ :=
  let page := pageOf page
  let limit := limitOf limit
  let skip := JsNumber.mul (JsNumber.sub page (JsNumber.fin 1)) limit
  match findPage env w.resumes skip limit with
  | .error err => { outcome := .error err, world := w, events := [] }
  | .ok found =>
    let resumes := found.map (fun r => (JVal.obj r.leanFields).delete "extractedText")
    let total := w.resumes.length
    { outcome := .ok
        { statusCode := 200
          body := some (JVal.obj
            [("status", JVal.str "success"),
             ("data", JVal.obj
               [("resumes", JVal.arr resumes),
                ("pagination", JVal.obj
                  [("total", JVal.num (JsNumber.fin total)), ("page", JVal.num page),
                   ("limit", JVal.num limit),
                   ("totalPages", JVal.num (totalPagesOf total limit))])])]) }
      world := w, events := [] }

/-- The handler `getResumeById`. -/
def getResumeById {σ : Type} (id : Nat) (w : World σ) : Run σ :=
  match Resume.findById w.resumes id with
  | none =>
    { outcome := .error (AppError ("No resume found with ID: " ++ toString id) 404)
      world := w, events := [] }
  | some resume =>
    { outcome := .ok
        { statusCode := 200
          body := some (JVal.obj
            [("status", JVal.str "success"),
             ("data", JVal.obj [("resume", JVal.obj resume.leanFields)])]) }
      world := w, events := [] }

/-- The handler `deleteResume`. -/
def deleteResume {σ : Type} (env : Env σ) (id : Nat) (w : World σ) : Run σ :=
  match Resume.findByIdAndDelete id w with
  | (none, w1) =>
    { outcome := .error (AppError ("No resume found with ID: " ++ toString id) 404)
      world := w1, events := [] }
  | (some resume, w1) =>
    if !resume.filePath.isEmpty && env.fs.existsSync w1.ext resume.filePath then
      { outcome := .ok { statusCode := 204, body := none }
        world := { w1 with ext := env.fs.unlink resume.filePath w1.ext }
        events := [Event.deleted resume, Event.unlinked resume.filePath] }
    else
      { outcome := .ok { statusCode := 204, body := none }
        world := w1, events := [Event.deleted resume] }

/-- A request to the service. -/
inductive Request where
  | upload (file : Option UploadedFile)
  | analyze (id : Nat) (jobDescription : Option JVal)
  | delete (id : Nat)
  | getById (id : Nat)
  | list (page limit : Option String)

/-- The handler that serves a request. -/
def handle {σ : Type} (env : Env σ) (req : Request) (w : World σ) : Run σ :=
  match req with
  | .upload file => uploadResume env file w
  | .analyze id jobDescription => analyzeResumeById env id jobDescription w
  | .delete id => deleteResume env id w
  | .getById id => getResumeById id w
  | .list page limit => getAllResumes env page limit w

/-- The worlds reachable from an empty collection: requests are served one
after the other, and between two requests the external state may change. -/
inductive Reachable {σ : Type} (env : Env σ) : World σ → Prop where
  | init (s : σ) : Reachable env { resumes := [], nextId := 0, ext := s }
  | serve (w : World σ) (req : Request) : Reachable env w → Reachable env (handle env req w).world
  | drift (w : World σ) (s : σ) : Reachable env w → Reachable env { w with ext := s }

/-- The four transitions of the status lifecycle. -/
def allowedTransition : Status → Status → Bool
  | .uploaded, .processed => true
  | .uploaded, .failed => true
  | .processed, .analyzed => true
  | .analyzed, .analyzed => true
  | _, _ => false

/-- The record invariant of the data model. -/
def recordInvariant (r : Resume) : Prop :=
  ((r.status = Status.processed ∨ r.status = Status.analyzed) →
      50 ≤ jsLength r.extractedText ∧ 0 < r.wordCount) ∧
  (r.status = Status.failed → r.extractedText = "") ∧
  (r.analysisResult.isSome ↔ r.status = Status.analyzed)

/-- The invariant of the worlds the service produces: ids are below the next
id, every document satisfies the record invariant, and no document is left in
the transient status `uploaded`. -/
def WellFormed {σ : Type} (w : World σ) : Prop :=
  (∀ r ∈ w.resumes, r._id < w.nextId) ∧
  (∀ r ∈ w.resumes, recordInvariant r ∧ r.status ≠ Status.uploaded)

/-- The document left by an upload whose extraction failed. -/
def failedDocument (now : Nat) (file : UploadedFile) (id : Nat) (err : JsError) : Resume :=
  { newDocument now file id with
    status := Status.failed, errorMessage := some err.message, updatedAt := now }

/-- The document left by an upload whose extraction succeeded. -/
def processedDocument (now : Nat) (file : UploadedFile) (id : Nat) (e : Extracted) : Resume :=
  { newDocument now file id with
    extractedText := e.text, pageCount := e.pageCount, wordCount := e.wordCount,
    status := Status.processed, updatedAt := now }

/-- The document written by a successful analysis of `r`. -/
def analyzedDocument (now : Nat) (r : Resume) (doc : AnalysisDoc) : Resume :=
  { r with analysisResult := some doc, status := Status.analyzed, updatedAt := now }

/-- An error without a status code of its own that none of the specialised
handlers recognises: what a `throw new Error(...)` or a runtime error produces. -/
def JsError.isPlain (e : JsError) : Prop :=
  e.statusCode = none ∧ e.isMulterError = false ∧ e.name ≠ "ValidationError" ∧
  e.name ≠ "CastError" ∧ e.code ≠ some (ErrCode.num 11000)

/-- The JSON body of a run that responded. -/
def Run.body? {σ : Type} (run : Run σ) : Option JVal :=
  match run.outcome with
  | .ok response => response.body
  | .error _ => none

/-- The elements of an array (none for the other values). -/
def JVal.items : JVal → List JVal
  | .arr xs => xs
  | _ => []

/-- The text of a string value. -/
def JVal.asString? : JVal → Option String
  | .str s => some s
  | _ => none

/-- The property `data.resume` of a response body. -/
def resumeOfBody (body : JVal) : Option JVal :=
  (body.get? "data").bind (fun d => d.get? "resume")

/-- The elements of `data.resumes` of a response body. -/
def resumesOfBody (body : JVal) : List JVal :=
  match (body.get? "data").bind (fun d => d.get? "resumes") with
  | some v => v.items
  | none => []

/-! ## services/aiService.js: the remote providers -/

/-- The scan of `s.replace(/FENCE\n?/g, "")` for a literal `FENCE`: `skip`
counts the characters of a matched fence that are still to be dropped, and
`afterFence` tells that a fence has just ended, so that one line feed is
dropped with it. -/
def removeFenceAux (fence : List Char) : Nat → Bool → List Char → List Char
  | _, _, [] => []
  | skip + 1, _, _ :: cs => removeFenceAux fence skip (skip == 0) cs
  | 0, afterFence, c :: cs =>
    if afterFence && c == '\n' then removeFenceAux fence 0 false cs
    else if fence.isPrefixOf (c :: cs) then
      removeFenceAux fence (fence.length - 1) (fence.length == 1) cs
    else c :: removeFenceAux fence 0 false cs

/-- The value of `s.replace(/FENCE\n?/g, "")`. -/
def removeFence (fence : String) (s : String) : String :=
  ⟨removeFenceAux fence.data 0 false s.data⟩

/-- The cleaning of a Gemini response:
`text.trim().replace(/```json\n?/g, "").replace(/```\n?/g, "").trim()`. -/
def cleanGemini (text : String) : String :=
  trim (removeFence "```" (removeFence "```json" (trim text)))

/-- The cleaning of a Groq or Ollama response:
`text.replace(/```json\n?/g, "").replace(/```\n?/g, "").trim()`. -/
def cleanPlain (text : String) : String :=
  trim (removeFence "```" (removeFence "```json" text))

/-- The remote services and the JSON parser, as seen from an external state
`σ`: each call takes the request text and returns the text of the response or
the error thrown. -/
structure Llm (σ : Type) where
  GEMINI_API_KEY : Option String
  GROQ_API_KEY : Option String
  -- `model.generateContent(prompt)` followed by `response.text()`
  geminiGenerate : String → σ → Except JsError String × σ
  -- `groq.chat.completions.create(...)` with the system and the user message,
  -- followed by `choices[0].message.content`
  groqCreate : String → String → σ → Except JsError String × σ
  -- `ollama.chat(...)` with the system and the user message, followed by
  -- `message.content`
  ollamaChat : String → String → σ → Except JsError String × σ
  -- `JSON.parse`
  jsonParse : String → Except JsError JVal

/-- The prompt that `analyzeWithGemini` sends. -/
def geminiPrompt (resumeText : String) : String :=
  "You are an expert resume reviewer. Analyze this resume and provide feedback in JSON format.\n\n" ++
  "Resume:\n" ++ resumeText ++ "\n\n" ++
  "Return ONLY valid JSON (no markdown) with this structure:\n" ++
  "\x7b\n" ++
  "  \"overallScore\": <number 0-100>,\n" ++
  "  \"experienceLevel\": \"<entry|mid|senior|executive>\",\n" ++
  "  \"strengths\": [\"strength 1\", \"strength 2\", \"...\"],\n" ++
  "  \"weaknesses\": [\"weakness 1\", \"weakness 2\", \"...\"],\n" ++
  "  \"suggestions\": [\"suggestion 1\", \"suggestion 2\", \"...\"],\n" ++
  "  \"keywords\": [\"keyword 1\", \"keyword 2\", \"...\"],\n" ++
  "  \"sections\": \x7b\n" ++
  "    \"hasContact\": <boolean>,\n" ++
  "    \"hasSummary\": <boolean>,\n" ++
  "    \"hasExperience\": <boolean>,\n" ++
  "    \"hasEducation\": <boolean>,\n" ++
  "    \"hasSkills\": <boolean>\n" ++
  "  \x7d\n" ++
  "\x7d\n\n" ++
  "Scoring: 90-100 exceptional, 80-89 excellent, 70-79 good, 60-69 fair, below 60 needs work."

/-- A property read as a condition: `undefined` is falsy. -/
def propertyTruthy (v : JVal) (key : String) : Bool :=
  match v.get? key with
  | some x => x.truthy
  | none => false

/-- The check of `analyzeWithGemini` on the parsed response:
`if (!analysis.overallScore || !analysis.experienceLevel) throw ...`. -/
def checkGeminiStructure (analysis : JVal) : Except JsError JVal :=
  match analysis with
  | .null => .error { name := "TypeError", message := "Cannot read properties of null" }
  | v =>
    if !propertyTruthy v "overallScore" || !propertyTruthy v "experienceLevel" then
      .error { message := "Invalid response structure" }
    else .ok v

/-- The provider `analyzeWithGemini` (the dynamic import of the SDK is taken to succeed). -/
def analyzeWithGemini {σ : Type} (llm : Llm σ) : Provider σ :=
  fun resumeText s =>
    if (orElse llm.GEMINI_API_KEY "").isEmpty then
      (.error { message := "GEMINI_API_KEY not found in environment variables" }, s)
    else
      match llm.geminiGenerate (geminiPrompt resumeText) s with
      | (.error error, s1) => (.error error, s1)
      | (.ok text, s1) =>
        match llm.jsonParse (cleanGemini text) with
        | .error error => (.error error, s1)
        | .ok analysis => (checkGeminiStructure analysis, s1)

def groqSystemMessage : String :=
  "You are an expert resume reviewer. Respond ONLY with valid JSON."

def groqUserMessage (resumeText : String) : String :=
  "Analyze this resume. Return JSON with: overallScore (0-100), experienceLevel " ++
  "(entry/mid/senior/executive), strengths (array), weaknesses (array), suggestions (array), " ++
  "keywords (array), sections (object with hasContact, hasSummary, hasExperience, " ++
  "hasEducation, hasSkills booleans).\n\nResume:\n" ++ resumeText

/-- The provider `analyzeWithGroq` (the dynamic import of the SDK is taken to succeed). -/
def analyzeWithGroq {σ : Type} (llm : Llm σ) : Provider σ :=
  fun resumeText s =>
    if (orElse llm.GROQ_API_KEY "").isEmpty then
      (.error { message := "GROQ_API_KEY not found" }, s)
    else
      match llm.groqCreate groqSystemMessage (groqUserMessage resumeText) s with
      | (.error error, s1) => (.error error, s1)
      | (.ok text, s1) => (llm.jsonParse (cleanPlain text), s1)

def ollamaSystemMessage : String :=
  "You are an expert resume reviewer. Respond ONLY with JSON."

def ollamaUserMessage (resumeText : String) : String :=
  "Analyze resume. Return JSON with: overallScore (0-100), experienceLevel " ++
  "(entry/mid/senior/executive), strengths, weaknesses, suggestions, keywords (arrays), " ++
  "sections (object with hasContact, hasSummary, hasExperience, hasEducation, hasSkills).\n\n" ++
  resumeText

/-- The provider `analyzeWithOllama` (the dynamic import of the SDK is taken to succeed). -/
def analyzeWithOllama {σ : Type} (llm : Llm σ) : Provider σ :=
  fun resumeText s =>
    match llm.ollamaChat ollamaSystemMessage (ollamaUserMessage resumeText) s with
    | (.error error, s1) => (.error error, s1)
    | (.ok text, s1) => (llm.jsonParse (cleanPlain text), s1)

/-- The four provider functions of the module, over the remote services. -/
def moduleProviders {σ : Type} (llm : Llm σ) (toLowerCase : String → String)
    (now : σ → Nat) : Providers σ :=
  { analyzeWithGemini := analyzeWithGemini llm
    analyzeWithGroq := analyzeWithGroq llm
    analyzeWithOllama := analyzeWithOllama llm
    analyzeWithMock := heuristicProvider toLowerCase now }

/-! ## config/multer.js, middleware/validateMongoId.js and routes/resumeRoutes.js -/

/-- The file part of a multipart request, as the upload middleware sees it
before it stores anything. -/
structure FilePart where
  fieldname : String
  originalname : String
  mimetype : String
  size : Nat
  deriving DecidableEq, Repr

/-- The callback result of `fileFilter`: accept the file, or an error. -/
def fileFilter (file : FilePart) : Except JsError Bool :=
  if file.mimetype = "application/pdf" then .ok true
  else .error (AppError "Only PDF files are allowed." 400)

/-- One code unit of `originalname.replace(/[^a-zA-Z0-9._-]/g, '_')`. -/
def sanitizeChar (c : Char) : List Char :=
  if c.isAlphanum || c == '.' || c == '_' || c == '-' then [c]
  else List.replicate (codeUnits c) '_'

/-- The `filename` callback of the disk storage: the time and the sanitized name. -/
def storageFilename (now : Nat) (file : FilePart) : String :=
  toString now ++ "-" ++ ⟨file.originalname.data.flatMap sanitizeChar⟩

/-- The upload library around the repository's configuration: the directory,
the clock, the size check it makes against `limits.fileSize`, and the write of
the file to disk. -/
structure Multer (σ : Type) where
  uploadDir : String
  dateNow : σ → Nat
  exceedsLimit : FilePart → Bool
  store : UploadedFile → σ → σ

/-- An error thrown by the upload library. -/
def MulterError (code message : String) : JsError :=
  { name := "MulterError", message := message, code := some (ErrCode.str code),
    isMulterError := true }

/-- The middleware `upload.single('resume')`: a part of another field is
refused, then the file filter decides, then the file is stored unless it is
too large; the result is `req.file`. -/
def uploadSingle {σ : Type} (m : Multer σ) (part : Option FilePart) (s : σ) :
    Except JsError (Option UploadedFile) × σ :=
  match part with
  | none => (.ok none, s)
  | some p =>
    if p.fieldname ≠ "resume" then
      (.error (MulterError "LIMIT_UNEXPECTED_FILE" "Unexpected field"), s)
    else
      match fileFilter p with
      | .error err => (.error err, s)
      | .ok false => (.ok none, s)
      | .ok true =>
        if m.exceedsLimit p then (.error (MulterError "LIMIT_FILE_SIZE" "File too large"), s)
        else
          let filename := storageFilename (m.dateNow s) p
          let file : UploadedFile :=
            { originalname := p.originalname, filename := filename,
              path := m.uploadDir ++ "/" ++ filename, size := p.size, mimetype := p.mimetype }
          (.ok (some file), m.store file s)

/-- The library functions on object ids: the validity test of a text and the
id that a valid text denotes. -/
structure IdGuard where
  isValid : String → Bool
  castId : String → Nat

/-- The middleware `validateMongoId`: the error passed to `next`, if any. -/
def validateMongoId (g : IdGuard) (id : String) : Option JsError :=
  if !g.isValid id then some (AppError ("Invalid ID format: \"" ++ id ++ "\"") 400)
  else none

/-- A request to the router of `/api/resumes`. -/
inductive HttpRequest where
  | getList (page limit : Option String)
  | getOne (id : String)
  | postUpload (part : Option FilePart)
  | postAnalyze (id : String) (jobDescription : Option JVal)
  | deleteOne (id : String)

/-- A handler behind the id guard. -/
def guarded {σ : Type} (g : IdGuard) (id : String) (w : World σ)
    (handler : Nat → World σ → Run σ) : Run σ :=
  match validateMongoId g id with
  | some err => { outcome := .error err, world := w, events := [] }
  | none => handler (g.castId id) w

/-- The router: each route runs its middleware and then its handler. -/
def route {σ : Type} (env : Env σ) (m : Multer σ) (g : IdGuard) (req : HttpRequest)
    (w : World σ) : Run σ :=
  match req with
  | .getList page limit => getAllResumes env page limit w
  | .getOne id => guarded g id w (fun oid w => getResumeById oid w)
  | .postUpload part =>
    match uploadSingle m part w.ext with
    | (.error err, _) => { outcome := .error err, world := w, events := [] }
    | (.ok file, s1) => uploadResume env file { w with ext := s1 }
  | .postAnalyze id jobDescription =>
    guarded g id w (fun oid w => analyzeResumeById env oid jobDescription w)
  | .deleteOne id => guarded g id w (fun oid w => deleteResume env oid w)

/-- The ids of the collection are pairwise distinct. -/
def UniqueIds {σ : Type} (w : World σ) : Prop :=
  (w.resumes.map (fun r => r._id)).Nodup

/-- A character is a backtick. -/
def isBacktick (c : Char) : Bool := c == Char.ofNat 96

/-- A text contains no backtick. -/
def noBacktick (s : String) : Prop := ∀ c ∈ s.data, isBacktick c = false

/-- The value of the `status` property of an error body. -/
def statusOfBody (r : Response) : Option String :=
  (r.body.bind (fun b => b.get? "status")).bind JVal.asString?

/-- A word of ASCII characters that lower-casing leaves alone. -/
def asciiLowerWord (n : String) : Prop :=
  ∀ c ∈ n.data, c.toNat < 128 ∧ c.toLower = c

/-- The markers of the experience level. -/
def levelMarkers : List String := ["senior", "lead", "entry", "junior"]

/-- Two properties of the case mapping of the runtime, which maps the ASCII
letters one by one and no other character to an ASCII letter that could
complete a marker: an occurrence of a lower-case ASCII word in any ASCII case
is still there after the mapping, and the mapping creates no occurrence of a
marker of the experience level. -/
structure CaseMappingLaws (toLowerCase : String → String) : Prop where
  keeps : ∀ t n, asciiLowerWord n → includes (asciiLower t) n = true →
    includes (toLowerCase t) n = true
  markers : ∀ t m, m ∈ levelMarkers → includes (asciiLower (toLowerCase t)) m = true →
    includes (asciiLower t) m = true

/-- The `_id` properties of the documents listed in a response body. -/
def listedIds (body : JVal) : List (Option JVal) :=
  (resumesOfBody body).map (fun d => d.get? "_id")

/-! ## Example data

The external state of the examples is a counter of provider calls. -/

def exampleFile : UploadedFile :=
  { originalname := "cv.pdf", filename := "1700000000000-cv.pdf",
    path := "uploads/1700000000000-cv.pdf", size := 2048, mimetype := "application/pdf" }

def exampleText : String :=
  "John Doe Email: john@example.com Experience: Developer at TechCorp Skills: Python Docker"

/-- A file system that holds the example file only; every file parses to the example text. -/
def exampleFileSystem : FileSystem Nat :=
  { existsSync := fun _ path => path == exampleFile.path
    readFileSync := fun _ _ => .ok []
    pdfParse := fun _ => .ok { text := some ("  " ++ exampleText ++ "\n"), numpages := some 1 }
    unlink := fun _ s => s }

/-- A remote provider without credentials. -/
def failingProvider : Provider Nat :=
  fun _ n => (.error { message := "GEMINI_API_KEY not found in environment variables" }, n + 1)

/-- A stand-in for a heuristic call that throws once. The module's own
`analyzeWithMock` never throws; this provider is not a model of it and only
exercises the error path of the adapter and of the analyze handler. -/
def flakyMock : Provider Nat :=
  fun resumeText n =>
    if n = 0 then (.error { message := "heuristic failed" }, n + 1)
    else (.ok (analyzeWithMock asciiLower 0 resumeText).toJVal, n + 1)

def exampleProviders : Providers Nat :=
  { analyzeWithGemini := failingProvider, analyzeWithGroq := failingProvider,
    analyzeWithOllama := failingProvider
    analyzeWithMock := heuristicProvider asciiLower (fun _ => 0) }

/-- Providers whose calls all throw at first: remote services without
credentials and the stand-in `flakyMock` in the place of the heuristic. -/
def flakyProviders : Providers Nat :=
  { analyzeWithGemini := failingProvider, analyzeWithGroq := failingProvider,
    analyzeWithOllama := failingProvider, analyzeWithMock := flakyMock }

/-- The texts of an array of strings. -/
def jsonStrings : Option JVal → List String
  | some (.arr items) => items.filterMap JVal.asString?
  | _ => []

/-- A boolean property, `false` when absent. -/
def jsonBool : Option JVal → Bool
  | some (.bool b) => b
  | _ => false

/-- A cast of an object to the analysis sub-document, used in the examples. -/
def castAnalysisBasic (v : JVal) : Except JsError AnalysisDoc :=
  match v with
  | .obj _ =>
    let sections := (v.get? "sections").getD JVal.null
    .ok { overallScore := match v.get? "overallScore" with
            | some (.num n) => some n
            | _ => none
          strengths := jsonStrings (v.get? "strengths")
          weaknesses := jsonStrings (v.get? "weaknesses")
          suggestions := jsonStrings (v.get? "suggestions")
          keywords := jsonStrings (v.get? "keywords")
          experienceLevel := match v.get? "experienceLevel" with
            | some (.str s) => s
            | _ => "unknown"
          sections :=
            { hasContact := jsonBool (sections.get? "hasContact")
              hasSummary := jsonBool (sections.get? "hasSummary")
              hasExperience := jsonBool (sections.get? "hasExperience")
              hasEducation := jsonBool (sections.get? "hasEducation")
              hasSkills := jsonBool (sections.get? "hasSkills") }
          analyzedAt := match v.get? "analyzedAt" with
            | some (.date ms) => ms
            | _ => 0 }
  | _ => .error { name := "CastError", message := "Cast to Embedded failed" }

def exampleEnv : Env Nat :=
  { config := { AI_PROVIDER := some "mock" }
    toLowerCase := asciiLower
    now := fun _ => 1000
    fs := exampleFileSystem
    providers := exampleProviders
    castAnalysisResult := castAnalysisBasic
    findInvalidPaging := fun _ _ => .error { name := "MongoServerError", message := "bad skip" } }

def emptyWorld : World Nat := { resumes := [], nextId := 0, ext := 0 }

/-- The world after the upload of the example file. -/
def uploadedWorld : World Nat :=
  (handle exampleEnv (.upload (some exampleFile)) emptyWorld).world

/-- The world after the upload and the analysis of the example file. -/
def analyzedWorld : World Nat := (handle exampleEnv (.analyze 0 none) uploadedWorld).world

/-- The uploaded world with the file stored at another location. -/
def relocatedWorld : World Nat :=
  { uploadedWorld with
    resumes := uploadedWorld.resumes.map (fun r => { r with filePath := "archive/0001.pdf" }) }

/-- An upload whose file is not on disk. -/
def missingFile : UploadedFile :=
  { originalname := "gone.pdf", filename := "1700000000001-gone.pdf",
    path := "uploads/1700000000001-gone.pdf", size := 10, mimetype := "application/pdf" }

/-- The world after the upload of the missing file. -/
def failedWorld : World Nat :=
  (handle exampleEnv (.upload (some missingFile)) emptyWorld).world

/-- The example environment over `flakyProviders`, in which the adapter throws. -/
def flakyEnv : Env Nat := { exampleEnv with providers := flakyProviders }

/-- The upload library of the examples: files above 5 MB are too large. -/
def exampleMulter : Multer Nat :=
  { uploadDir := "uploads", dateNow := fun _ => 1700000000000
    exceedsLimit := fun p => decide (5 * 1024 * 1024 < p.size), store := fun _ s => s }

/-- The text file of the upload test. -/
def textPart : FilePart :=
  { fieldname := "resume", originalname := "test.txt", mimetype := "text/plain", size := 11 }

/-- A guard that accepts the texts of 24 hexadecimal digits and reads them in base 16. -/
def exampleGuard : IdGuard :=
  { isValid := fun id => id.length == 24 && id.data.all (fun c => c.isDigit || ('a' ≤ c && c ≤ 'f') || ('A' ≤ c && c ≤ 'F'))
    castId := fun id => id.data.foldl (fun acc c =>
      16 * acc + (if c.isDigit then c.toNat - '0'.toNat
        else if 'a' ≤ c then c.toNat - 'a'.toNat + 10 else c.toNat - 'A'.toNat + 10)) 0 }

/-- A response with values outside the ranges of the schema. -/
def outOfRangeJson : String :=
  "\x7b\"overallScore\": 150, \"experienceLevel\": \"guru\"\x7d"

def outOfRangeValue : JVal :=
  JVal.obj [("overallScore", JVal.num (JsNumber.fin 150)), ("experienceLevel", JVal.str "guru")]

/-- A response without `overallScore` and without `experienceLevel`. -/
def missingFieldsJson : String := "\x7b\"strengths\": []\x7d"

def missingFieldsValue : JVal := JVal.obj [("strengths", JVal.arr [])]

/-- A response of the requested structure whose score is 0. -/
def zeroScoreJson : String :=
  "\x7b\"overallScore\": 0, \"experienceLevel\": \"entry\", \"strengths\": [], " ++
  "\"weaknesses\": [\"No content\"], \"suggestions\": [\"Add your experience\"], " ++
  "\"keywords\": [], \"sections\": \x7b\"hasContact\": false, \"hasSummary\": false, " ++
  "\"hasExperience\": false, \"hasEducation\": false, \"hasSkills\": false\x7d\x7d"

def zeroScoreValue : JVal :=
  JVal.obj [("overallScore", JVal.num (JsNumber.fin 0)), ("experienceLevel", JVal.str "entry"),
    ("strengths", JVal.arr []), ("weaknesses", JVal.arr [JVal.str "No content"]),
    ("suggestions", JVal.arr [JVal.str "Add your experience"]), ("keywords", JVal.arr []),
    ("sections", JVal.obj [("hasContact", JVal.bool false), ("hasSummary", JVal.bool false),
      ("hasExperience", JVal.bool false), ("hasEducation", JVal.bool false),
      ("hasSkills", JVal.bool false)])]

/-- The JSON parser on the three example responses. -/
def exampleJsonParse (s : String) : Except JsError JVal :=
  if s = outOfRangeJson then .ok outOfRangeValue
  else if s = missingFieldsJson then .ok missingFieldsValue
  else if s = zeroScoreJson then .ok zeroScoreValue
  else .error { name := "SyntaxError", message := "Unexpected token" }

/-- Remote services that all answer with the given text. -/
def llmAnswering (answer : String) : Llm Nat :=
  { GEMINI_API_KEY := some "gemini-key", GROQ_API_KEY := some "groq-key"
    geminiGenerate := fun _ n => (.ok answer, n + 1)
    groqCreate := fun _ _ n => (.ok answer, n + 1)
    ollamaChat := fun _ _ n => (.ok answer, n + 1)
    jsonParse := exampleJsonParse }

/-- The example environment with the module's providers over the given
services and the given provider selection. -/
def llmEnv (provider answer : String) : Env Nat :=
  { exampleEnv with
    config := { AI_PROVIDER := some provider }
    providers := moduleProviders (llmAnswering answer) asciiLower (fun _ => 1000) }

/-- The `analysis` property of the body of an analyze response. -/
def analysisOfBody (body : JVal) : Option JVal :=
  (body.get? "data").bind (fun d => d.get? "analysis")

/-! ## Facts about the string layer -/

theorem splitWhitespace_cons (c : Char) (cs : List Char) :
    splitWhitespace (c :: cs) =
      if isWhiteSpace c then
        if startsWithWhiteSpace cs then splitWhitespace cs else [] :: splitWhitespace cs
      else pushChar c (splitWhitespace cs) := rfl

/-- The pieces of `split(/\s+/)` and of cutting at every single whitespace
character start with the same piece and have the same non-empty pieces. -/
theorem splitWhitespace_splitOnP (l : List Char) :
    ∃ t ts ts', splitWhitespace l = t :: ts ∧ l.splitOnP isWhiteSpace = t :: ts' ∧
      ts.filter (fun t => !t.isEmpty) = ts'.filter (fun t => !t.isEmpty) := by
  induction l with
  | nil => exact ⟨[], [], [], rfl, by simp, rfl⟩
  | cons c cs ih =>
    obtain ⟨t, ts, ts', h1, h2, h3⟩ := ih
    rw [splitWhitespace_cons, List.splitOnP_cons]
    by_cases hc : isWhiteSpace c = true
    · simp only [hc, if_true]
      by_cases hd : startsWithWhiteSpace cs = true
      · simp only [hd, if_true]
        have ht : t = [] := by
          cases cs with
          | nil => cases hd
          | cons d ds =>
            rw [List.splitOnP_cons] at h2
            simp only [startsWithWhiteSpace] at hd
            simp only [hd, if_true] at h2
            exact (List.cons.inj h2).1.symm
        subst ht
        exact ⟨[], ts, [] :: ts', h1, by rw [h2], by simpa using h3⟩
      · simp only [hd]
        exact ⟨[], t :: ts, t :: ts', by simp [h1], by rw [h2], by
          simp only [List.filter_cons]; rw [h3]⟩
    · simp only [hc]
      exact ⟨c :: t, ts, ts', by simp [h1, pushChar], by simp [h2], h3⟩

/-- A text that starts with a non-whitespace character has a non-empty first piece. -/
theorem splitWhitespace_head_nonempty (c : Char) (cs : List Char)
    (hc : isWhiteSpace c = false) :
    ∃ t ts, splitWhitespace (c :: cs) = (c :: t) :: ts := by
  rw [splitWhitespace_cons]
  simp only [hc]
  cases splitWhitespace cs with
  | nil => exact ⟨[], [], rfl⟩
  | cons u us => exact ⟨u, us, rfl⟩

/-- After a non-whitespace last character, every piece but the first is non-empty. -/
theorem splitWhitespace_tail_nonempty (l : List Char)
    (hlast : l.getLast?.map isWhiteSpace ≠ some true) :
    ∀ t ∈ (splitWhitespace l).tail, t ≠ [] := by
  induction l with
  | nil => simp [splitWhitespace]
  | cons c cs ih =>
    cases cs with
    | nil =>
      rw [splitWhitespace_cons]
      by_cases hc : isWhiteSpace c = true
      · exact absurd (by simp [hc]) hlast
      · simp [hc, splitWhitespace, pushChar]
    | cons d ds =>
      have ih' := ih (by rw [List.getLast?_cons_cons] at hlast; exact hlast)
      rw [splitWhitespace_cons]
      by_cases hc : isWhiteSpace c = true
      · simp only [hc, if_true]
        by_cases hd : isWhiteSpace d = true
        · simp only [startsWithWhiteSpace, hd, if_true]; exact ih'
        · simp only [startsWithWhiteSpace, hd]
          intro t ht
          simp only [Bool.false_eq_true, if_false, List.tail_cons] at ht
          obtain ⟨u, us, hu⟩ := splitWhitespace_head_nonempty d ds (by simpa using hd)
          rw [hu] at ht ih'
          rcases List.mem_cons.1 ht with h | h
          · subst h; simp
          · exact ih' t (by simpa using h)
      · simp only [hc]
        cases hs : splitWhitespace (d :: ds) with
        | nil => simp [pushChar]
        | cons u us =>
          rw [hs] at ih'
          simpa [pushChar] using ih'

/-- On a non-empty text without leading or trailing whitespace, `split(/\s+/)`
yields exactly the non-empty tokens. -/
theorem splitWhitespace_length_eq_tokens (s : String) (hne : s.data ≠ [])
    (h : noOuterWhitespace s) : mockWordCount s = (wordTokens s).length := by
  obtain ⟨t, ts, ts', h1, h2, h3⟩ := splitWhitespace_splitOnP s.data
  have htail := splitWhitespace_tail_nonempty s.data h.2
  rw [h1] at htail
  have hts : ts.filter (fun t => !t.isEmpty) = ts := by
    apply List.filter_eq_self.2
    intro a ha
    have := htail a (by simpa using ha)
    cases a <;> simp_all
  have ht : t ≠ [] := by
    cases hd : s.data with
    | nil => exact absurd hd hne
    | cons c cs =>
      have hc : isWhiteSpace c = false := by
        have := h.1
        rw [hd] at this
        simpa using this
      obtain ⟨u, us, hu⟩ := splitWhitespace_head_nonempty c cs hc
      rw [hd, hu] at h1
      rw [← (List.cons.inj h1).1]; simp
  unfold mockWordCount wordTokens
  rw [h1, h2, List.filter_cons, ← h3, hts]
  cases t with
  | nil => exact absurd rfl ht
  | cons a as => simp

theorem vocabulary_nodup : (TECH_KW ++ SOFT_KW).Nodup := by decide

theorem mockKeywords_length (lower : String) :
    (mockKeywords lower).length = distinctKeywordCount lower := by
  unfold mockKeywords distinctKeywordCount
  rw [← List.toFinset_filter, List.toFinset_card_of_nodup (vocabulary_nodup.filter _)]

/-! ## Facts about trimming and extraction -/

theorem trimChars_prefix_dropWhile (l : List Char) :
    trimChars l <+: l.dropWhile isWhiteSpace := by
  unfold trimChars
  have h := List.dropWhile_suffix isWhiteSpace (l := (l.dropWhile isWhiteSpace).reverse)
  have := List.reverse_prefix.2 h
  simpa using this

theorem trimChars_sublist (l : List Char) : (trimChars l).Sublist l :=
  (trimChars_prefix_dropWhile l).sublist.trans (List.dropWhile_suffix _).sublist

/-- A trimmed text does not start with whitespace. -/
theorem trimChars_head (l : List Char) :
    (trimChars l).head?.map isWhiteSpace ≠ some true := by
  obtain ⟨t, ht⟩ := trimChars_prefix_dropWhile l
  cases hd : trimChars l with
  | nil => simp
  | cons c cs =>
    rw [hd] at ht
    have hc : (l.dropWhile isWhiteSpace).head? = some c := by rw [← ht]; simp
    have := List.head?_dropWhile_not isWhiteSpace l
    rw [hc] at this
    simp only [List.head?_cons, Option.map_some', ne_eq, Option.some.injEq]
    simpa using this

theorem jsLength_trim_le (s : String) : jsLength (trim s) ≤ jsLength s := by
  unfold jsLength trim
  exact List.Sublist.sum_le_sum ((trimChars_sublist s.data).map codeUnits) (by simp)

theorem jsLength_pos_data (s : String) (h : 0 < jsLength s) : s.data ≠ [] := by
  intro hnil
  simp [jsLength, hnil] at h

/-- A non-empty trimmed text has at least one non-empty piece. -/
theorem trim_wordCount_pos (s : String) (h : (trim s).data ≠ []) :
    0 < ((splitWhitespace (trim s).data).filter (fun w => w.length > 0)).length := by
  have hhead := trimChars_head s.data
  cases hd : (trim s).data with
  | nil => exact absurd hd h
  | cons c cs =>
    have hd' : trimChars s.data = c :: cs := hd
    rw [hd'] at hhead
    have hc : isWhiteSpace c = false := by simpa using hhead
    obtain ⟨t, ts, hsplit⟩ := splitWhitespace_head_nonempty c cs hc
    rw [hsplit]
    simp [List.filter_cons]

/-- A successful extraction returns at least 50 code units and a positive word count. -/
theorem extractTextFromPDF_ok {σ : Type} (fs : FileSystem σ) (s : σ) (filePath : String)
    (e : Extracted) (h : extractTextFromPDF fs s filePath = .ok e) :
    50 ≤ jsLength e.text ∧ 0 < e.wordCount := by
  unfold extractTextFromPDF at h
  split at h
  · cases h
  · split at h
    · cases h
    · split at h
      · cases h
      · rename_i parsed _
        dsimp only at h
        split at h
        · cases h
        · rename_i hlen
          simp only [Bool.or_eq_true, decide_eq_true_eq, not_or, not_lt] at hlen
          injection h with h
          subst h
          refine ⟨hlen.2, ?_⟩
          apply trim_wordCount_pos
          apply jsLength_pos_data
          omega

/-- A failed extraction throws one of the three operational errors. -/
theorem extractTextFromPDF_error {σ : Type} (fs : FileSystem σ) (s : σ) (filePath : String)
    (err : JsError) (h : extractTextFromPDF fs s filePath = .error err) :
    ∃ message code, err = AppError message code ∧ (code = 404 ∨ code = 500 ∨ code = 422) := by
  unfold extractTextFromPDF at h
  split at h
  · injection h with h; exact ⟨_, _, h.symm, Or.inl rfl⟩
  · split at h
    · injection h with h; exact ⟨_, _, h.symm, Or.inr (Or.inl rfl)⟩
    · split at h
      · injection h with h; exact ⟨_, _, h.symm, Or.inr (Or.inr rfl)⟩
      · dsimp only at h
        split at h
        · injection h with h; exact ⟨_, _, h.symm, Or.inr (Or.inr rfl)⟩
        · cases h

/-! ## Further facts about trimming and tokens -/

/-- A trimmed text does not end with whitespace. -/
theorem trimChars_getLast (l : List Char) :
    (trimChars l).getLast?.map isWhiteSpace ≠ some true := by
  unfold trimChars
  rw [List.getLast?_reverse]
  have := List.head?_dropWhile_not isWhiteSpace (l.dropWhile isWhiteSpace).reverse
  cases h : ((l.dropWhile isWhiteSpace).reverse.dropWhile isWhiteSpace).head? with
  | none => simp
  | some c =>
    rw [h] at this
    simp only [Option.map_some', ne_eq, Option.some.injEq]
    simpa using this

theorem trim_noOuterWhitespace (s : String) : noOuterWhitespace (trim s) :=
  ⟨trimChars_head s.data, trimChars_getLast s.data⟩

/-- The non-empty pieces of `split(/\s+/)` are the whitespace-delimited tokens. -/
theorem splitWhitespace_filter_eq_wordTokens (s : String) :
    (splitWhitespace s.data).filter (fun w => decide (w.length > 0)) = wordTokens s := by
  obtain ⟨t, ts, ts', h1, h2, h3⟩ := splitWhitespace_splitOnP s.data
  have hfun : (fun w : List Char => decide (w.length > 0)) = (fun t => !t.isEmpty) := by
    funext w
    cases w <;> simp
  unfold wordTokens
  rw [h1, h2, hfun, List.filter_cons, List.filter_cons, h3]

/-! ## Facts about the cleaning of a response -/

/-- A fence that starts with a backtick does not match at a character that is none. -/
theorem isPrefixOf_backtick_false (f : List Char) (c : Char) (cs : List Char)
    (hc : isBacktick c = false) : (Char.ofNat 96 :: f).isPrefixOf (c :: cs) = false := by
  rw [List.isPrefixOf_cons₂]
  have : (Char.ofNat 96 == c) = false := by
    unfold isBacktick at hc
    rw [Bool.eq_false_iff] at hc ⊢
    intro h
    apply hc
    rw [beq_iff_eq] at h ⊢
    exact h.symm
  rw [this]; rfl

/-- The scan keeps a stretch without backticks. -/
theorem removeFenceAux_noBacktick (f l rest : List Char)
    (hl : ∀ c ∈ l, isBacktick c = false) :
    removeFenceAux (Char.ofNat 96 :: f) 0 false (l ++ rest) =
      l ++ removeFenceAux (Char.ofNat 96 :: f) 0 false rest := by
  induction l with
  | nil => rfl
  | cons c cs ih =>
    have hc := hl c (List.mem_cons_self _ _)
    have ih' := ih (fun x hx => hl x (List.mem_cons_of_mem _ hx))
    rw [List.cons_append, removeFenceAux]
    simp only [Bool.false_and, Bool.false_eq_true, if_false,
      isPrefixOf_backtick_false f c (cs ++ rest) hc, ih', List.cons_append]

theorem removeFenceAux_noBacktick_self (f l : List Char)
    (hl : ∀ c ∈ l, isBacktick c = false) :
    removeFenceAux (Char.ofNat 96 :: f) 0 false l = l := by
  have := removeFenceAux_noBacktick f l [] hl
  simpa [removeFenceAux] using this

/-- Whitespace at the end does not change the trimmed text. -/
theorem trimChars_append_whitespace (l : List Char) (w : Char) (hw : isWhiteSpace w = true) :
    trimChars (l ++ [w]) = trimChars l := by
  unfold trimChars
  rw [List.dropWhile_append]
  by_cases hE : (l.dropWhile isWhiteSpace).isEmpty = true
  · have hnil : l.dropWhile isWhiteSpace = [] := List.isEmpty_iff.1 hE
    simp [hE, hnil, List.dropWhile_cons, hw]
  · simp [hE, List.dropWhile_cons, hw]

/-- A text without outer whitespace is its own trimmed text. -/
theorem trimChars_eq_self (l : List Char)
    (hhead : l.head?.map isWhiteSpace ≠ some true)
    (hlast : l.getLast?.map isWhiteSpace ≠ some true) : trimChars l = l := by
  unfold trimChars
  have h1 : l.dropWhile isWhiteSpace = l := by
    cases l with
    | nil => rfl
    | cons c cs =>
      have hc : isWhiteSpace c = false := by simpa using hhead
      simp [List.dropWhile_cons, hc]
  rw [h1]
  have h2 : l.reverse.dropWhile isWhiteSpace = l.reverse := by
    cases hr : l.reverse with
    | nil => rfl
    | cons c cs =>
      have hc : isWhiteSpace c = false := by
        have : l.getLast? = some c := by
          rw [← List.head?_reverse, hr]; rfl
        rw [this] at hlast
        simpa using hlast
      simp [List.dropWhile_cons, hc]
  rw [h2, List.reverse_reverse]

theorem trimChars_idem (l : List Char) : trimChars (trimChars l) = trimChars l :=
  trimChars_eq_self _ (trimChars_head l) (trimChars_getLast l)

theorem trimChars_noBacktick (l : List Char) (hl : ∀ c ∈ l, isBacktick c = false) :
    ∀ c ∈ trimChars l, isBacktick c = false :=
  fun c hc => hl c ((trimChars_sublist l).subset hc)

/-- The two replacements on a text fenced with the `json` fence. -/
theorem removeFence_jsonFenced (l : List Char) (hl : ∀ c ∈ l, isBacktick c = false) :
    removeFenceAux "```".data 0 false
      (removeFenceAux "```json".data 0 false ("```json\n".data ++ l ++ "\n```".data)) =
      l ++ ['\n'] := by
  have e1 : "```json".data = Char.ofNat 96 :: [Char.ofNat 96, Char.ofNat 96, 'j', 's', 'o', 'n'] := by
    decide
  have e2 : "```".data = Char.ofNat 96 :: [Char.ofNat 96, Char.ofNat 96] := by decide
  have e3 : "```json\n".data =
      [Char.ofNat 96, Char.ofNat 96, Char.ofNat 96, 'j', 's', 'o', 'n', '\n'] := by decide
  have e4 : "\n```".data = ['\n', Char.ofNat 96, Char.ofNat 96, Char.ofNat 96] := by decide
  have hfirst : removeFenceAux "```json".data 0 false ("```json\n".data ++ l ++ "\n```".data) =
      l ++ "\n```".data := by
    have hstart : removeFenceAux "```json".data 0 false
        ("```json\n".data ++ l ++ "\n```".data) =
        removeFenceAux "```json".data 0 false (l ++ "\n```".data) := by
      rw [e3, e1]
      simp [removeFenceAux, List.isPrefixOf]
    rw [hstart, e1, removeFenceAux_noBacktick _ l _ hl, e4]
    congr 1
  rw [hfirst, e2, removeFenceAux_noBacktick _ l _ hl, e4]
  congr 1

/-- The two replacements on a text fenced with the bare fence. -/
theorem removeFence_bareFenced (l : List Char) (hl : ∀ c ∈ l, isBacktick c = false) :
    removeFenceAux "```".data 0 false
      (removeFenceAux "```json".data 0 false ("```\n".data ++ l ++ "\n```".data)) =
      l ++ ['\n'] := by
  have e1 : "```json".data = Char.ofNat 96 :: [Char.ofNat 96, Char.ofNat 96, 'j', 's', 'o', 'n'] := by
    decide
  have e2 : "```".data = Char.ofNat 96 :: [Char.ofNat 96, Char.ofNat 96] := by decide
  have e3 : "```\n".data = [Char.ofNat 96, Char.ofNat 96, Char.ofNat 96, '\n'] := by decide
  have e4 : "\n```".data = ['\n', Char.ofNat 96, Char.ofNat 96, Char.ofNat 96] := by decide
  have hfirst : removeFenceAux "```json".data 0 false ("```\n".data ++ l ++ "\n```".data) =
      "```\n".data ++ l ++ "\n```".data := by
    have hstart : removeFenceAux "```json".data 0 false ("```\n".data ++ l ++ "\n```".data) =
        "```\n".data ++ removeFenceAux "```json".data 0 false (l ++ "\n```".data) := by
      rw [e3, e1]
      simp [removeFenceAux, List.isPrefixOf]
    rw [hstart, e1, removeFenceAux_noBacktick _ l _ hl, e4, List.append_assoc]
    congr 2
  have hsecond : removeFenceAux "```".data 0 false ("```\n".data ++ l ++ "\n```".data) =
      removeFenceAux "```".data 0 false (l ++ "\n```".data) := by
    rw [e3, e2]
    simp [removeFenceAux, List.isPrefixOf]
  rw [hfirst, hsecond, e2, removeFenceAux_noBacktick _ l _ hl, e4]
  congr 1

/-! ## Facts about substring tests -/

theorem includes_iff (hay needle : String) :
    includes hay needle = true ↔ needle.data <:+: hay.data := by
  unfold includes
  rw [List.any_eq_true, List.infix_iff_prefix_suffix]
  constructor
  · rintro ⟨t, ht, hp⟩
    exact ⟨t, List.isPrefixOf_iff_prefix.1 hp, (List.mem_tails _ _).1 ht⟩
  · rintro ⟨t, hp, ht⟩
    exact ⟨t, (List.mem_tails _ _).2 ht, List.isPrefixOf_iff_prefix.2 hp⟩

/-- A part of a word that occurs in a text occurs in the text. -/
theorem includes_of_part (hay word part : String) (h : includes hay word = true)
    (hpart : includes word part = true) : includes hay part = true :=
  (includes_iff _ _).2 (((includes_iff _ _).1 hpart).trans ((includes_iff _ _).1 h))

/-- An occurrence of a word is an occurrence of the folded word in the folded text. -/
theorem includes_asciiLower (hay word : String) (h : includes hay word = true) :
    includes (asciiLower hay) (asciiLower word) = true :=
  (includes_iff _ _).2 (((includes_iff _ _).1 h).map Char.toLower)

theorem Char.toNat_ofNat_small (n : Nat) (h : n < 0xd800) : (Char.ofNat n).toNat = n := by
  have hv : n.isValidChar := Or.inl h
  unfold Char.ofNat
  rw [dif_pos hv]
  simp only [Char.ofNatAux, Char.toNat, UInt32.toNat]
  rfl

theorem Char.toLower_idem (c : Char) : c.toLower.toLower = c.toLower := by
  by_cases h : c.toNat ≥ 65 ∧ c.toNat ≤ 90
  · have h1 : c.toLower = Char.ofNat (c.toNat + 32) := by
      simp only [Char.toLower]
      rw [if_pos h]
    have h2 : (Char.ofNat (c.toNat + 32)).toNat = c.toNat + 32 :=
      Char.toNat_ofNat_small _ (by omega)
    rw [h1]
    simp only [Char.toLower]
    rw [h2, if_neg (by omega)]
  · have h1 : c.toLower = c := by
      simp only [Char.toLower]
      rw [if_neg h]
    rw [h1, h1]

theorem asciiLower_idem (s : String) : asciiLower (asciiLower s) = asciiLower s := by
  unfold asciiLower
  congr 1
  simp only [List.map_map]
  apply List.map_congr_left
  intro c _
  exact Char.toLower_idem c

theorem mem_eraseDups_loop (a : String) (as bs : List String) :
    a ∈ List.eraseDups.loop as bs ↔ a ∈ as ∨ a ∈ bs := by
  induction as generalizing bs with
  | nil => simp [List.eraseDups.loop]
  | cons x xs ih =>
    unfold List.eraseDups.loop
    cases hx : bs.elem x with
    | true =>
      simp only [ih]
      have hxb : x ∈ bs := List.elem_iff.1 hx
      constructor
      · rintro (h | h)
        · exact Or.inl (List.mem_cons_of_mem _ h)
        · exact Or.inr h
      · rintro (h | h)
        · rcases List.mem_cons.1 h with rfl | h
          · exact Or.inr hxb
          · exact Or.inl h
        · exact Or.inr h
    | false =>
      simp only [ih, List.mem_cons]
      tauto

theorem mem_eraseDups (a : String) (as : List String) : a ∈ as.eraseDups ↔ a ∈ as := by
  unfold List.eraseDups
  rw [mem_eraseDups_loop]
  simp

theorem asciiLower_laws : CaseMappingLaws asciiLower :=
  { keeps := fun _ _ _ h => h
    markers := fun t m _ h => by rw [asciiLower_idem] at h; exact h }

/-! ## Facts about the collection -/

theorem Resume.findById_some {rs : List Resume} {id : Nat} {r : Resume}
    (h : Resume.findById rs id = some r) : r ∈ rs ∧ r._id = id := by
  unfold Resume.findById at h
  exact ⟨List.mem_of_find?_eq_some h, by simpa using List.find?_some h⟩

theorem Resume.findById_append_fresh (rs : List Resume) (doc : Resume)
    (hfresh : ∀ r ∈ rs, r._id < doc._id) :
    Resume.findById (rs ++ [doc]) doc._id = some doc := by
  induction rs with
  | nil => simp [Resume.findById]
  | cons r rs ih =>
    have hr : r._id ≠ doc._id := Nat.ne_of_lt (hfresh r (List.mem_cons_self _ _))
    have := ih (fun x hx => hfresh x (List.mem_cons_of_mem _ hx))
    unfold Resume.findById at this ⊢
    simp [List.find?_cons, hr, this]

theorem replaceFirst_append_fresh (rs : List Resume) (doc doc' : Resume)
    (hfresh : ∀ r ∈ rs, r._id < doc._id) :
    replaceFirst doc._id doc' (rs ++ [doc]) = rs ++ [doc'] := by
  induction rs with
  | nil => simp [replaceFirst]
  | cons r rs ih =>
    have hr : r._id ≠ doc._id := Nat.ne_of_lt (hfresh r (List.mem_cons_self _ _))
    have := ih (fun x hx => hfresh x (List.mem_cons_of_mem _ hx))
    simp [replaceFirst, hr, this]

theorem mem_replaceFirst {id : Nat} {doc x : Resume} {rs : List Resume}
    (h : x ∈ replaceFirst id doc rs) : x = doc ∨ x ∈ rs := by
  induction rs with
  | nil => simp [replaceFirst] at h
  | cons r rs ih =>
    unfold replaceFirst at h
    split at h
    · rcases List.mem_cons.1 h with h | h
      · exact Or.inl h
      · exact Or.inr (List.mem_cons_of_mem _ h)
    · rcases List.mem_cons.1 h with h | h
      · exact Or.inr (h ▸ List.mem_cons_self _ _)
      · rcases ih h with h | h
        · exact Or.inl h
        · exact Or.inr (List.mem_cons_of_mem _ h)

theorem mem_removeFirst {id : Nat} {x : Resume} {rs : List Resume}
    (h : x ∈ removeFirst id rs) : x ∈ rs := by
  induction rs with
  | nil => simp [removeFirst] at h
  | cons r rs ih =>
    unfold removeFirst at h
    split at h
    · exact List.mem_cons_of_mem _ h
    · rcases List.mem_cons.1 h with h | h
      · exact h ▸ List.mem_cons_self _ _
      · exact List.mem_cons_of_mem _ (ih h)

theorem Resume.findByIdAndUpdate_fresh {σ : Type} (now : Nat) (update : Resume → Resume)
    (rs : List Resume) (doc : Resume) (n : Nat) (s : σ)
    (hfresh : ∀ r ∈ rs, r._id < doc._id) :
    Resume.findByIdAndUpdate now doc._id update { resumes := rs ++ [doc], nextId := n, ext := s } =
      (some (doc, { update doc with updatedAt := now }),
       { resumes := rs ++ [{ update doc with updatedAt := now }], nextId := n, ext := s }) := by
  unfold Resume.findByIdAndUpdate
  simp only [Resume.findById_append_fresh rs doc hfresh, replaceFirst_append_fresh rs doc _ hfresh]

theorem Resume.findByIdAndUpdate_found {σ : Type} (now id : Nat) (update : Resume → Resume)
    (w : World σ) (r : Resume) {rs : List Resume} (hrs : w.resumes = rs)
    (h : Resume.findById rs id = some r) :
    Resume.findByIdAndUpdate now id update w =
      (some (r, { update r with updatedAt := now }),
       { w with resumes := replaceFirst id { update r with updatedAt := now } w.resumes }) := by
  subst hrs
  unfold Resume.findByIdAndUpdate
  rw [h]

/-! ## Facts about the upload handler -/

theorem uploadResume_invalid {σ : Type} (env : Env σ) (f : UploadedFile) (w : World σ)
    (hv : createValidationErrors f.filename f.originalname f.path ≠ []) :
    (uploadResume env (some f) w).world = w ∧ (uploadResume env (some f) w).events = [] := by
  have : (createValidationErrors f.filename f.originalname f.path).isEmpty = false := by
    cases h : createValidationErrors f.filename f.originalname f.path with
    | nil => exact absurd h hv
    | cons a as => rfl
  simp [uploadResume, Resume.create, this]

theorem uploadResume_failed {σ : Type} (env : Env σ) (f : UploadedFile) (w : World σ)
    (err : JsError)
    (hv : createValidationErrors f.filename f.originalname f.path = [])
    (hfresh : ∀ r ∈ w.resumes, r._id < w.nextId)
    (hx : extractTextFromPDF env.fs w.ext f.path = .error err) :
    (uploadResume env (some f) w).outcome = .error err ∧
    (uploadResume env (some f) w).world =
      { resumes := w.resumes ++ [failedDocument (env.now w.ext) f w.nextId err]
        nextId := w.nextId + 1, ext := w.ext } ∧
    (uploadResume env (some f) w).events =
      [Event.created (newDocument (env.now w.ext) f w.nextId),
       Event.updated (newDocument (env.now w.ext) f w.nextId)
         (failedDocument (env.now w.ext) f w.nextId err)] := by
  have hfresh' : ∀ r ∈ w.resumes, r._id < (newDocument (env.now w.ext) f w.nextId)._id := hfresh
  have hu := fun (u : Resume → Resume) =>
    Resume.findByIdAndUpdate_fresh (env.now w.ext) u w.resumes
      (newDocument (env.now w.ext) f w.nextId) (w.nextId + 1) w.ext hfresh'
  simp only [uploadResume, Resume.create, hv, List.isEmpty_nil, if_true, hx, hu]
  exact ⟨trivial, rfl, rfl⟩

theorem uploadResume_processed {σ : Type} (env : Env σ) (f : UploadedFile) (w : World σ)
    (e : Extracted)
    (hv : createValidationErrors f.filename f.originalname f.path = [])
    (hfresh : ∀ r ∈ w.resumes, r._id < w.nextId)
    (hx : extractTextFromPDF env.fs w.ext f.path = .ok e) :
    (uploadResume env (some f) w).world =
      { resumes := w.resumes ++ [processedDocument (env.now w.ext) f w.nextId e]
        nextId := w.nextId + 1, ext := w.ext } ∧
    (uploadResume env (some f) w).events =
      [Event.created (newDocument (env.now w.ext) f w.nextId),
       Event.updated (newDocument (env.now w.ext) f w.nextId)
         (processedDocument (env.now w.ext) f w.nextId e)] := by
  have hfresh' : ∀ r ∈ w.resumes, r._id < (newDocument (env.now w.ext) f w.nextId)._id := hfresh
  have hu := fun (u : Resume → Resume) =>
    Resume.findByIdAndUpdate_fresh (env.now w.ext) u w.resumes
      (newDocument (env.now w.ext) f w.nextId) (w.nextId + 1) w.ext hfresh'
  simp only [uploadResume, Resume.create, hv, List.isEmpty_nil, if_true, hx, hu]
  exact ⟨rfl, rfl⟩

/-! ## Facts about the analyze handler -/

theorem providerCall_not_write (calls : List ProviderName) (text : String) :
    ∀ ev ∈ calls.map (fun p => Event.providerCall p text), ev.isWrite = false := by
  intro ev hev
  obtain ⟨p, _, rfl⟩ := List.mem_map.1 hev
  rfl

/-- The two ways a run of the analyze handler can end: with an error and no
write, or with one update of the document found. -/
theorem analyzeResumeById_cases {σ : Type} (env : Env σ) (id : Nat)
    (jobDescription : Option JVal) (w : World σ) :
    (∃ e, (analyzeResumeById env id jobDescription w).outcome = .error e ∧
        (analyzeResumeById env id jobDescription w).world.resumes = w.resumes ∧
        (analyzeResumeById env id jobDescription w).world.nextId = w.nextId ∧
        ∀ ev ∈ (analyzeResumeById env id jobDescription w).events, ev.isWrite = false) ∨
    (∃ r doc t resp, ∃ calls : List ProviderName,
        Resume.findById w.resumes id = some r ∧ r.status ≠ Status.failed ∧
        50 ≤ jsLength (trim r.extractedText) ∧
        (analyzeResumeById env id jobDescription w).outcome = .ok resp ∧
        (analyzeResumeById env id jobDescription w).world.resumes =
          replaceFirst id (analyzedDocument t r doc) w.resumes ∧
        (analyzeResumeById env id jobDescription w).world.nextId = w.nextId ∧
        (analyzeResumeById env id jobDescription w).events =
          calls.map (fun p => Event.providerCall p r.extractedText) ++
            [Event.updated r (analyzedDocument t r doc)]) := by
  unfold analyzeResumeById
  cases hfind : Resume.findById w.resumes id with
  | none => exact Or.inl ⟨_, rfl, rfl, rfl, by simp⟩
  | some r =>
    simp only
    by_cases hfailed : r.status = Status.failed
    · rw [if_pos hfailed]
      exact Or.inl ⟨_, rfl, rfl, rfl, by simp⟩
    · rw [if_neg hfailed]
      by_cases hshort : (r.extractedText.isEmpty || decide (jsLength (trim r.extractedText) < 50)) = true
      · rw [if_pos hshort]
        exact Or.inl ⟨_, rfl, rfl, rfl, by simp⟩
      · rw [if_neg hshort]
        have hlen : 50 ≤ jsLength (trim r.extractedText) := by
          simp only [Bool.or_eq_true, decide_eq_true_eq, not_or, not_lt] at hshort
          exact hshort.2
        cases hrun : (analyzeResume env.providers env.config env.toLowerCase env.now
            r.extractedText jobDescription w.ext).outcome with
        | error e =>
          exact Or.inl ⟨e, rfl, rfl, rfl, providerCall_not_write _ _⟩
        | ok analysisResult =>
          simp only
          cases hcast : env.castAnalysisResult analysisResult with
          | error e => exact Or.inl ⟨e, rfl, rfl, rfl, providerCall_not_write _ _⟩
          | ok doc =>
            have hupd := fun (now : Nat) (u : Resume → Resume) (s : σ) =>
              Resume.findByIdAndUpdate_found now id u ⟨w.resumes, w.nextId, s⟩ r rfl hfind
            dsimp only
            rw [hupd]
            exact Or.inr ⟨r, doc, _, _, _, rfl, hfailed, hlen, rfl, rfl, rfl, rfl⟩

/-! ## Preservation of well-formedness -/

theorem newDocument_failed_invariant (now : Nat) (f : UploadedFile) (id : Nat) (err : JsError) :
    recordInvariant (failedDocument now f id err) := by
  refine ⟨?_, fun _ => rfl, ?_⟩
  · intro h; rcases h with h | h <;> cases h
  · constructor
    · intro h; cases h
    · intro h; cases h

theorem processedDocument_invariant (now : Nat) (f : UploadedFile) (id : Nat) (e : Extracted)
    (he : 50 ≤ jsLength e.text ∧ 0 < e.wordCount) :
    recordInvariant (processedDocument now f id e) := by
  refine ⟨fun _ => he, ?_, ?_⟩
  · intro h; cases h
  · constructor
    · intro h; cases h
    · intro h; cases h

theorem analyzedDocument_invariant (now : Nat) (r : Resume) (doc : AnalysisDoc)
    (hr : recordInvariant r) (hu : r.status ≠ Status.uploaded) (hf : r.status ≠ Status.failed) :
    recordInvariant (analyzedDocument now r doc) := by
  have hstat : r.status = Status.processed ∨ r.status = Status.analyzed := by
    cases hs : r.status <;> simp_all
  refine ⟨fun _ => hr.1 hstat, ?_, ?_⟩
  · intro h; cases h
  · constructor
    · intro _; rfl
    · intro _; rfl

theorem uploadResume_wellFormed {σ : Type} (env : Env σ) (file : Option UploadedFile)
    (w : World σ) (h : WellFormed w) : WellFormed (uploadResume env file w).world := by
  cases file with
  | none => exact h
  | some f =>
    by_cases hv : createValidationErrors f.filename f.originalname f.path = []
    · cases hx : extractTextFromPDF env.fs w.ext f.path with
      | error err =>
        rw [(uploadResume_failed env f w err hv h.1 hx).2.1]
        constructor
        · intro r hr
          rcases List.mem_append.1 hr with hr | hr
          · exact Nat.lt_succ_of_lt (h.1 r hr)
          · rw [List.mem_singleton.1 hr]; exact Nat.lt_succ_self _
        · intro r hr
          rcases List.mem_append.1 hr with hr | hr
          · exact h.2 r hr
          · rw [List.mem_singleton.1 hr]
            exact ⟨newDocument_failed_invariant _ _ _ _, by intro h; cases h⟩
      | ok e =>
        rw [(uploadResume_processed env f w e hv h.1 hx).1]
        constructor
        · intro r hr
          rcases List.mem_append.1 hr with hr | hr
          · exact Nat.lt_succ_of_lt (h.1 r hr)
          · rw [List.mem_singleton.1 hr]; exact Nat.lt_succ_self _
        · intro r hr
          rcases List.mem_append.1 hr with hr | hr
          · exact h.2 r hr
          · rw [List.mem_singleton.1 hr]
            exact ⟨processedDocument_invariant _ _ _ _ (extractTextFromPDF_ok _ _ _ _ hx),
              by intro h; cases h⟩
    · rw [(uploadResume_invalid env f w hv).1]; exact h

theorem analyzeResumeById_wellFormed {σ : Type} (env : Env σ) (id : Nat)
    (jobDescription : Option JVal) (w : World σ) (h : WellFormed w) :
    WellFormed (analyzeResumeById env id jobDescription w).world := by
  rcases analyzeResumeById_cases env id jobDescription w with
    ⟨e, _, hres, hnext, _⟩ | ⟨r, doc, t, resp, calls, hfind, hfailed, _, _, hres, hnext, _⟩
  · unfold WellFormed; rw [hres, hnext]; exact h
  · obtain ⟨hmem, hid⟩ := Resume.findById_some hfind
    unfold WellFormed; rw [hres, hnext]
    constructor
    · intro x hx
      rcases mem_replaceFirst hx with hx | hx
      · rw [hx]; exact h.1 r hmem
      · exact h.1 x hx
    · intro x hx
      rcases mem_replaceFirst hx with hx | hx
      · rw [hx]
        exact ⟨analyzedDocument_invariant _ _ _ (h.2 r hmem).1 (h.2 r hmem).2 hfailed,
          by intro h; cases h⟩
      · exact h.2 x hx

theorem deleteResume_resumes {σ : Type} (env : Env σ) (id : Nat) (w : World σ) :
    (deleteResume env id w).world.nextId = w.nextId ∧
    ∀ x ∈ (deleteResume env id w).world.resumes, x ∈ w.resumes := by
  unfold deleteResume Resume.findByIdAndDelete
  cases hfind : Resume.findById w.resumes id with
  | none => exact ⟨rfl, fun x hx => hx⟩
  | some r =>
    simp only
    split
    · exact ⟨rfl, fun x hx => mem_removeFirst hx⟩
    · exact ⟨rfl, fun x hx => mem_removeFirst hx⟩

theorem getAllResumes_world {σ : Type} (env : Env σ) (page limit : Option String)
    (w : World σ) : (getAllResumes env page limit w).world = w := by
  unfold getAllResumes
  simp only
  split <;> rfl

theorem getResumeById_world {σ : Type} (id : Nat) (w : World σ) :
    (getResumeById id w).world = w := by
  unfold getResumeById
  split <;> rfl

theorem handle_wellFormed {σ : Type} (env : Env σ) (req : Request) (w : World σ)
    (h : WellFormed w) : WellFormed (handle env req w).world := by
  cases req with
  | upload file => exact uploadResume_wellFormed env file w h
  | analyze id jobDescription => exact analyzeResumeById_wellFormed env id jobDescription w h
  | delete id =>
    obtain ⟨hnext, hsub⟩ := deleteResume_resumes env id w
    exact ⟨fun r hr => by
      show r._id < (deleteResume env id w).world.nextId
      rw [hnext]; exact h.1 r (hsub r hr), fun r hr => h.2 r (hsub r hr)⟩
  | getById id => show WellFormed (getResumeById id w).world; rw [getResumeById_world]; exact h
  | list page limit =>
    show WellFormed (getAllResumes env page limit w).world
    rw [getAllResumes_world]; exact h

theorem reachable_wellFormed {σ : Type} (env : Env σ) (w : World σ) (h : Reachable env w) :
    WellFormed w := by
  induction h with
  | init s =>
    constructor
    · intro r hr; cases hr
    · intro r hr; cases hr
  | serve w req _ ih => exact handle_wellFormed env req w ih
  | drift w s _ ih => exact ih

/-! ## Facts about unique ids, deletion and paging -/

theorem map_id_replaceFirst (id : Nat) (doc : Resume) (rs : List Resume) (h : doc._id = id) :
    (replaceFirst id doc rs).map (fun r => r._id) = rs.map (fun r => r._id) := by
  induction rs with
  | nil => rfl
  | cons r rs ih =>
    unfold replaceFirst
    by_cases hr : (r._id == id) = true
    · rw [if_pos hr]
      have : r._id = id := by simpa using hr
      simp [h, this]
    · rw [if_neg hr]
      simp [ih]

theorem removeFirst_sublist (id : Nat) (rs : List Resume) : (removeFirst id rs).Sublist rs := by
  induction rs with
  | nil => exact List.Sublist.slnil
  | cons r rs ih =>
    unfold removeFirst
    split
    · exact List.sublist_cons_self _ _
    · exact ih.cons₂ _

theorem removeFirst_eq_filter (id : Nat) (rs : List Resume)
    (h : (rs.map (fun r => r._id)).Nodup) :
    removeFirst id rs = rs.filter (fun x => x._id != id) := by
  induction rs with
  | nil => rfl
  | cons r rs ih =>
    rw [List.map_cons, List.nodup_cons] at h
    unfold removeFirst
    by_cases hr : (r._id == id) = true
    · have hid : r._id = id := by simpa using hr
      rw [if_pos hr, List.filter_cons]
      have : (r._id != id) = false := by simp [hid]
      rw [this]
      symm
      simp only [Bool.false_eq_true, if_false]
      apply List.filter_eq_self.2
      intro x hx
      have hne : x._id ≠ id := by
        intro hxid
        apply h.1
        rw [hid, ← hxid]
        exact List.mem_map_of_mem _ hx
      simpa using hne
    · have hne : r._id ≠ id := by simpa using hr
      rw [if_neg hr, List.filter_cons]
      have : (r._id != id) = true := by simpa using hne
      rw [this, if_pos rfl, ih h.2]

theorem Resume.findById_eq_none_iff (rs : List Resume) (id : Nat) :
    Resume.findById rs id = none ↔ ∀ r ∈ rs, r._id ≠ id := by
  unfold Resume.findById
  rw [List.find?_eq_none]
  constructor
  · intro h r hr; simpa using h r hr
  · intro h r hr; simpa using h r hr

theorem uploadResume_uniqueIds {σ : Type} (env : Env σ) (file : Option UploadedFile)
    (w : World σ) (hwf : WellFormed w) (h : UniqueIds w) :
    UniqueIds (uploadResume env file w).world := by
  have happend : ∀ d : Resume, d._id = w.nextId →
      ((w.resumes ++ [d]).map (fun r => r._id)).Nodup := by
    intro d hd
    rw [List.map_append, List.nodup_append]
    refine ⟨h, by simp, ?_⟩
    intro a ha hb
    obtain ⟨r, hr, rfl⟩ := List.mem_map.1 ha
    have hlt := hwf.1 r hr
    simp only [List.map_cons, List.map_nil, List.mem_singleton] at hb
    omega
  cases file with
  | none => exact h
  | some f =>
    by_cases hv : createValidationErrors f.filename f.originalname f.path = []
    · cases hx : extractTextFromPDF env.fs w.ext f.path with
      | error err =>
        unfold UniqueIds
        rw [(uploadResume_failed env f w err hv hwf.1 hx).2.1]
        exact happend _ rfl
      | ok e =>
        unfold UniqueIds
        rw [(uploadResume_processed env f w e hv hwf.1 hx).1]
        exact happend _ rfl
    · unfold UniqueIds
      rw [(uploadResume_invalid env f w hv).1]
      exact h

theorem deleteResume_world_resumes {σ : Type} (env : Env σ) (id : Nat) (w : World σ) :
    (deleteResume env id w).world.resumes =
      match Resume.findById w.resumes id with
      | none => w.resumes
      | some _ => removeFirst id w.resumes := by
  unfold deleteResume Resume.findByIdAndDelete
  cases hfind : Resume.findById w.resumes id with
  | none => rfl
  | some r =>
    simp only
    split <;> rfl

theorem handle_uniqueIds {σ : Type} (env : Env σ) (req : Request) (w : World σ)
    (hwf : WellFormed w) (h : UniqueIds w) : UniqueIds (handle env req w).world := by
  cases req with
  | upload file => exact uploadResume_uniqueIds env file w hwf h
  | analyze id jobDescription =>
    show UniqueIds (analyzeResumeById env id jobDescription w).world
    rcases analyzeResumeById_cases env id jobDescription w with
      ⟨e, _, hres, _, _⟩ | ⟨r, doc, t, resp, calls, hfind, _, _, _, hres, _, _⟩
    · unfold UniqueIds; rw [hres]; exact h
    · unfold UniqueIds
      have hid : (analyzedDocument t r doc)._id = id := (Resume.findById_some hfind).2
      rw [hres, map_id_replaceFirst id (analyzedDocument t r doc) w.resumes hid]
      exact h
  | delete id =>
    show UniqueIds (deleteResume env id w).world
    unfold UniqueIds
    rw [deleteResume_world_resumes]
    cases Resume.findById w.resumes id with
    | none => exact h
    | some r => exact ((removeFirst_sublist id w.resumes).map _).nodup h
  | getById id =>
    show UniqueIds (getResumeById id w).world
    rw [getResumeById_world]; exact h
  | list page limit =>
    show UniqueIds (getAllResumes env page limit w).world
    rw [getAllResumes_world]; exact h

theorem reachable_uniqueIds {σ : Type} (env : Env σ) (w : World σ) (h : Reachable env w) :
    UniqueIds w := by
  induction h with
  | init s => exact List.nodup_nil
  | serve w req hw ih => exact handle_uniqueIds env req w (reachable_wellFormed env w hw) ih
  | drift w s _ ih => exact ih

theorem parseInt_cases (s : String) :
    parseInt s = JsNumber.nan ∨ ∃ z : ℤ, parseInt s = JsNumber.fin (z : ℚ) := by
  unfold parseInt
  dsimp only
  split
  · exact Or.inl rfl
  · split
    · exact Or.inr ⟨-(digitsValue _ : ℤ), by push_cast; rfl⟩
    · exact Or.inr ⟨(digitsValue _ : ℤ), by push_cast; rfl⟩

theorem JsNumber.toNat?_natCast (n : Nat) : (JsNumber.fin (n : ℚ)).toNat? = some n := by
  simp [JsNumber.toNat?]

/-- A numeric page is a natural number that is at least 1. -/
theorem pageOf_numeric (page : Option String) (h : pageOf page ≠ JsNumber.nan) :
    ∃ P : Nat, 1 ≤ P ∧ pageOf page = JsNumber.fin (P : ℚ) := by
  unfold pageOf at h ⊢
  rcases parseInt_cases (orElse page "1") with hp | ⟨z, hp⟩
  · rw [hp] at h; exact absurd rfl h
  · rw [hp]
    by_cases hz : (1 : ℤ) ≤ z
    · refine ⟨z.toNat, by omega, ?_⟩
      have hq : (1 : ℚ) ≤ (z : ℚ) := by exact_mod_cast hz
      have hcast : ((z.toNat : ℕ) : ℚ) = (z : ℚ) := by
        have : ((z.toNat : ℕ) : ℤ) = z := Int.toNat_of_nonneg (by omega)
        exact_mod_cast this
      simp only [JsNumber.max, hq, if_true, hcast]
    · refine ⟨1, le_refl _, ?_⟩
      have hq : ¬ (1 : ℚ) ≤ (z : ℚ) := by
        intro hh; apply hz; exact_mod_cast hh
      simp only [JsNumber.max, hq, if_false, Nat.cast_one]

/-- A numeric limit is a natural number between 1 and 50. -/
theorem limitOf_numeric (limit : Option String) (h : limitOf limit ≠ JsNumber.nan) :
    ∃ L : Nat, 1 ≤ L ∧ L ≤ 50 ∧ limitOf limit = JsNumber.fin (L : ℚ) := by
  unfold limitOf at h ⊢
  rcases parseInt_cases (orElse limit "10") with hp | ⟨z, hp⟩
  · rw [hp] at h; exact absurd rfl h
  · rw [hp]
    by_cases hz : (1 : ℤ) ≤ z
    · have hq : (1 : ℚ) ≤ (z : ℚ) := by exact_mod_cast hz
      by_cases h50 : (50 : ℤ) ≤ z
      · refine ⟨50, by norm_num, le_refl _, ?_⟩
        have hq50 : (50 : ℚ) ≤ (z : ℚ) := by exact_mod_cast h50
        simp only [JsNumber.max, JsNumber.min, hq, if_true, hq50]
        norm_num
      · refine ⟨z.toNat, by omega, by omega, ?_⟩
        have hq50 : ¬ (50 : ℚ) ≤ (z : ℚ) := by
          intro hh; apply h50; exact_mod_cast hh
        have hcast : ((z.toNat : ℕ) : ℚ) = (z : ℚ) := by
          have : ((z.toNat : ℕ) : ℤ) = z := Int.toNat_of_nonneg (by omega)
          exact_mod_cast this
        simp only [JsNumber.max, JsNumber.min, hq, if_true, hq50, if_false, hcast]
    · refine ⟨1, le_refl _, by norm_num, ?_⟩
      have hq : ¬ (1 : ℚ) ≤ (z : ℚ) := by
        intro hh; apply hz; exact_mod_cast hh
      simp only [JsNumber.max, JsNumber.min, hq, if_false]
      norm_num

/-- With a numeric page and limit, every document that List sends is a
document of the collection. -/
theorem getAllResumes_listed {σ : Type} (env : Env σ) (page limit : Option String)
    (w : World σ) (hp : pageOf page ≠ JsNumber.nan) (hl : limitOf limit ≠ JsNumber.nan) :
    ∃ body, (getAllResumes env page limit w).body? = some body ∧
      ∀ v ∈ listedIds body, ∃ r ∈ w.resumes, v = some (JVal.objectId r._id) := by
  obtain ⟨P, hP, hpage⟩ := pageOf_numeric page hp
  obtain ⟨L, _, _, hlimit⟩ := limitOf_numeric limit hl
  have hskip : JsNumber.mul (JsNumber.sub (JsNumber.fin (P : ℚ)) (JsNumber.fin 1))
      (JsNumber.fin (L : ℚ)) = JsNumber.fin (((P - 1) * L : ℕ) : ℚ) := by
    simp only [JsNumber.sub, JsNumber.mul]
    congr 1
    push_cast [Nat.cast_sub hP]
    ring
  have hfind : findPage env w.resumes (JsNumber.fin (((P - 1) * L : ℕ) : ℚ))
      (JsNumber.fin (L : ℚ)) =
      .ok (((w.resumes.insertionSort (fun a b => b.createdAt ≤ a.createdAt)).drop
        ((P - 1) * L)).take L) := by
    unfold findPage
    rw [JsNumber.toNat?_natCast, JsNumber.toNat?_natCast]
  have hids : ∀ (xs : List Resume) (a b c : JVal),
      listedIds (JVal.obj [("status", a), ("data", JVal.obj
        [("resumes", JVal.arr (xs.map (fun r => (JVal.obj r.leanFields).delete "extractedText"))),
         ("pagination", b)])]) = xs.map (fun r => some (JVal.objectId r._id)) := by
    intro xs a b c
    show (xs.map (fun r => (JVal.obj r.leanFields).delete "extractedText")).map
      (fun d => d.get? "_id") = _
    rw [List.map_map]
    rfl
  unfold getAllResumes
  simp only [hpage, hlimit, hskip, hfind]
  refine ⟨_, rfl, ?_⟩
  intro v hv
  rw [hids _ _ _ JVal.null] at hv
  obtain ⟨r, hr, rfl⟩ := List.mem_map.1 hv
  refine ⟨r, ?_, rfl⟩
  have := List.mem_of_mem_drop (List.mem_of_mem_take hr)
  exact (List.perm_insertionSort _ _).mem_iff.1 this

/-! ## Facts about the error handler -/

/-- An `AppError` is answered with its own status code. -/
theorem respond_appError (cfg : Config) (message : String) (code : Nat) (hc : code ≠ 0) :
    (respond cfg (.error (AppError message code))).statusCode = code := by
  have h1 : ("Error" : String) ≠ "ValidationError" := by decide
  have h2 : ("Error" : String) ≠ "CastError" := by decide
  simp [respond, globalErrorHandler, errorMessageAndStatus, handleMulterError, AppError, hc,
    h1, h2]

/-- A plain error is answered with status 500. -/
theorem respond_plain (cfg : Config) (e : JsError) (h : e.isPlain) :
    (respond cfg (.error e)).statusCode = 500 := by
  obtain ⟨h1, h2, h3, h4, h5⟩ := h
  simp [respond, globalErrorHandler, errorMessageAndStatus, handleMulterError, h1, h2, h3, h4, h5]

/-! ## Claims -/

/-- C1 (the code departs from the claim): the responses of GetById and List
carry the stored `filePath`. For the uploaded example document, `data.resume`
of GetById has `filePath`, every element of `data.resumes` of List has it, and
moving the file to another location changes the GetById response. -/
theorem getResumeById_exposes_filePath :
    ((getResumeById 0 uploadedWorld).body?.bind resumeOfBody).bind
        (fun r => r.get? "filePath") = some (JVal.str "uploads/1700000000000-cv.pdf") ∧
    ((getAllResumes exampleEnv none none uploadedWorld).body?.map
        (fun b => (resumesOfBody b).map (fun r => r.hasKey "filePath"))) = some [true] ∧
    (getResumeById 0 relocatedWorld).body? ≠ (getResumeById 0 uploadedWorld).body? := by
  refine ⟨rfl, by with_unfolding_all rfl, ?_⟩
  intro h
  have := congrArg (fun b : Option JVal =>
    ((b.bind resumeOfBody).bind (fun r => r.get? "filePath")).bind JVal.asString?) h
  revert this
  decide

/-- C3: Analyze answers 404 when no document has the id, 422 when the document
is `failed`, and 422 when its extracted text has fewer than 50 characters; in
these three cases the handler has no effect at all (no provider call, no write,
the world is unchanged). When the adapter itself throws, the error is passed
on as it is (status 500 for a plain error), and whenever the handler ends with
an error it has written nothing and the collection is unchanged. -/
theorem analyzeResumeById_failures {σ : Type} (env : Env σ) (id : Nat)
    (jobDescription : Option JVal) (w : World σ) :
    (Resume.findById w.resumes id = none →
      (respond env.config (analyzeResumeById env id jobDescription w).outcome).statusCode = 404 ∧
      (analyzeResumeById env id jobDescription w).events = [] ∧
      (analyzeResumeById env id jobDescription w).world = w) ∧
    (∀ r, Resume.findById w.resumes id = some r → r.status = Status.failed →
      (respond env.config (analyzeResumeById env id jobDescription w).outcome).statusCode = 422 ∧
      (analyzeResumeById env id jobDescription w).events = [] ∧
      (analyzeResumeById env id jobDescription w).world = w) ∧
    (∀ r, Resume.findById w.resumes id = some r → jsLength r.extractedText < 50 →
      (respond env.config (analyzeResumeById env id jobDescription w).outcome).statusCode = 422 ∧
      (analyzeResumeById env id jobDescription w).events = [] ∧
      (analyzeResumeById env id jobDescription w).world = w) ∧
    (∀ r e, Resume.findById w.resumes id = some r → r.status ≠ Status.failed →
      50 ≤ jsLength (trim r.extractedText) →
      (analyzeResume env.providers env.config env.toLowerCase env.now r.extractedText
        jobDescription w.ext).outcome = .error e →
      (analyzeResumeById env id jobDescription w).outcome = .error e ∧
      (e.isPlain →
        (respond env.config
          (analyzeResumeById env id jobDescription w).outcome).statusCode = 500)) ∧
    (∀ e, (analyzeResumeById env id jobDescription w).outcome = .error e →
      (analyzeResumeById env id jobDescription w).world.resumes = w.resumes ∧
      ∀ ev ∈ (analyzeResumeById env id jobDescription w).events, ev.isWrite = false) := by
  refine ⟨?_, ?_, ?_, ?_, ?_⟩
  · intro hfind
    simp only [analyzeResumeById, hfind]
    exact ⟨respond_appError _ _ _ (by decide), by simp⟩
  · intro r hfind hfailed
    simp only [analyzeResumeById, hfind, hfailed, if_true]
    exact ⟨respond_appError _ _ _ (by decide), by simp⟩
  · intro r hfind hshort
    have hle := jsLength_trim_le r.extractedText
    have hcond : (r.extractedText.isEmpty || decide (jsLength (trim r.extractedText) < 50))
        = true := by
      simp only [Bool.or_eq_true, decide_eq_true_eq]
      exact Or.inr (by omega)
    by_cases hfailed : r.status = Status.failed
    · simp only [analyzeResumeById, hfind, hfailed, if_true]
      exact ⟨respond_appError _ _ _ (by decide), by simp⟩
    · simp only [analyzeResumeById, hfind]
      rw [if_neg hfailed, if_pos hcond]
      exact ⟨respond_appError _ _ _ (by decide), rfl, rfl⟩
  · intro r e hfind hfailed hlen hrun
    have hcond : ¬ (r.extractedText.isEmpty || decide (jsLength (trim r.extractedText) < 50))
        = true := by
      simp only [Bool.or_eq_true, decide_eq_true_eq, not_or, not_lt]
      refine ⟨?_, hlen⟩
      intro hempty
      have hdata : r.extractedText.data = [] := by
        rw [(String.isEmpty_iff r.extractedText).1 hempty]
      have := jsLength_trim_le r.extractedText
      have h0 : jsLength r.extractedText = 0 := by simp [jsLength, hdata]
      omega
    have hout : (analyzeResumeById env id jobDescription w).outcome = .error e := by
      simp only [analyzeResumeById, hfind]
      rw [if_neg hfailed, if_neg hcond]
      simp only [hrun]
    exact ⟨hout, fun hp => by rw [hout]; exact respond_plain _ _ hp⟩
  · intro e he
    rcases analyzeResumeById_cases env id jobDescription w with
      ⟨_, _, hres, _, hev⟩ | ⟨_, _, _, resp, _, _, _, _, hok, _⟩
    · exact ⟨hres, hev⟩
    · rw [hok] at he; cases he

/-- The three rejections and the adapter failure of C3 on the example worlds. -/
theorem analyzeResumeById_failures_witness :
    (Resume.findById uploadedWorld.resumes 7 = none ∧
      (respond exampleEnv.config
        (analyzeResumeById exampleEnv 7 none uploadedWorld).outcome).statusCode = 404 ∧
      (analyzeResumeById exampleEnv 7 none uploadedWorld).events = [] ∧
      (analyzeResumeById exampleEnv 7 none uploadedWorld).world = uploadedWorld) ∧
    ((failedWorld.resumes.map (fun r => r.status)) = [Status.failed] ∧
      (respond exampleEnv.config
        (analyzeResumeById exampleEnv 0 none failedWorld).outcome).statusCode = 422 ∧
      (analyzeResumeById exampleEnv 0 none failedWorld).events = [] ∧
      (analyzeResumeById exampleEnv 0 none failedWorld).world = failedWorld) ∧
    ((respond flakyEnv.config
        (analyzeResumeById flakyEnv 0 none uploadedWorld).outcome).statusCode = 500 ∧
      (analyzeResumeById flakyEnv 0 none uploadedWorld).world.resumes = uploadedWorld.resumes) :=
  ⟨⟨rfl, (analyzeResumeById_failures exampleEnv 7 none uploadedWorld).1 rfl⟩,
   ⟨rfl, (analyzeResumeById_failures exampleEnv 0 none failedWorld).2.1
      (failedDocument 1000 missingFile 0 (AppError "PDF file not found on disk." 404)) rfl rfl⟩,
   ⟨((analyzeResumeById_failures flakyEnv 0 none uploadedWorld).2.2.2.1
      (processedDocument 1000 exampleFile 0 ⟨exampleText, 1, 11⟩)
      { message := "heuristic failed" } rfl (by decide) (by decide) rfl).2
        ⟨rfl, rfl, by decide, by decide, by decide⟩,
    ((analyzeResumeById_failures flakyEnv 0 none uploadedWorld).2.2.2.2
      { message := "heuristic failed" } rfl).1⟩⟩

/-- C4: every document of a world reachable from the empty collection by
Upload, Analyze and Delete requests (and the read requests) satisfies the
record invariant: in `processed` or `analyzed` the extracted text has at least
50 characters and the word count is positive, in `failed` the extracted text is
empty, and the analysis result is present exactly in `analyzed`. -/
theorem reachable_recordInvariant {σ : Type} (env : Env σ) (w : World σ)
    (h : Reachable env w) : ∀ r ∈ w.resumes, recordInvariant r :=
  fun r hr => ((reachable_wellFormed env w h).2 r hr).1

/-- The record invariant in the world after an upload and an analysis. -/
theorem reachable_recordInvariant_witness :
    Reachable exampleEnv analyzedWorld ∧
    (analyzedWorld.resumes.map (fun r => r.status)) = [Status.analyzed] ∧
    ∀ r ∈ analyzedWorld.resumes, recordInvariant r :=
  ⟨Reachable.serve _ _ (Reachable.serve _ _ (Reachable.init 0)), rfl,
   reachable_recordInvariant exampleEnv analyzedWorld
     (Reachable.serve _ _ (Reachable.serve _ _ (Reachable.init 0)))⟩

/-- C5: in a reachable world, every update that a request makes to a document
changes its status along one of the four transitions `uploaded -> processed`,
`uploaded -> failed`, `processed -> analyzed`, `analyzed -> analyzed`; so a
`failed` document is never updated, an `analyzed` one stays `analyzed`, and
`analyzed` is never reached from `uploaded`. -/
theorem status_transitions_allowed {σ : Type} (env : Env σ) (w : World σ) (req : Request)
    (h : Reachable env w) :
    ∀ before after, Event.updated before after ∈ (handle env req w).events →
      allowedTransition before.status after.status = true := by
  have hwf := reachable_wellFormed env w h
  intro before after hmem
  cases req with
  | upload file =>
    cases file with
    | none => simp [handle, uploadResume] at hmem
    | some f =>
      by_cases hv : createValidationErrors f.filename f.originalname f.path = []
      · cases hx : extractTextFromPDF env.fs w.ext f.path with
        | error err =>
          have hev := (uploadResume_failed env f w err hv hwf.1 hx).2.2
          simp only [handle, hev, List.mem_cons, List.mem_singleton, List.not_mem_nil,
            or_false, reduceCtorEq, false_or, Event.updated.injEq] at hmem
          obtain ⟨rfl, rfl⟩ := hmem
          rfl
        | ok e =>
          have hev := (uploadResume_processed env f w e hv hwf.1 hx).2
          simp only [handle, hev, List.mem_cons, List.mem_singleton, List.not_mem_nil,
            or_false, reduceCtorEq, false_or, Event.updated.injEq] at hmem
          obtain ⟨rfl, rfl⟩ := hmem
          rfl
      · have hev := (uploadResume_invalid env f w hv).2
        simp [handle, hev] at hmem
  | analyze id jobDescription =>
    rcases analyzeResumeById_cases env id jobDescription w with
      ⟨_, _, _, _, hev⟩ | ⟨r, doc, t, resp, calls, hfind, hfailed, _, _, _, _, hev⟩
    · have := hev _ hmem
      cases this
    · simp only [handle, hev, List.mem_append, List.mem_map, List.mem_singleton,
        reduceCtorEq, and_false, exists_false, false_or, Event.updated.injEq] at hmem
      obtain ⟨rfl, rfl⟩ := hmem
      obtain ⟨hr, _⟩ := Resume.findById_some hfind
      have hu := (hwf.2 before hr).2
      show allowedTransition before.status Status.analyzed = true
      cases hs : before.status <;> simp_all [allowedTransition]
  | delete id =>
    simp only [handle, deleteResume] at hmem
    split at hmem
    · simp at hmem
    · split at hmem <;> simp at hmem
  | getById id =>
    simp only [handle, getResumeById] at hmem
    split at hmem <;> simp at hmem
  | list page limit =>
    simp only [handle, getAllResumes] at hmem
    split at hmem <;> simp at hmem

/-- The transitions made by the upload and the analysis of the example file. -/
theorem status_transitions_allowed_witness :
    Reachable exampleEnv uploadedWorld ∧
    (handle exampleEnv (.analyze 0 none) uploadedWorld).events.length = 2 ∧
    ∀ before after,
      Event.updated before after ∈ (handle exampleEnv (.analyze 0 none) uploadedWorld).events →
      allowedTransition before.status after.status = true :=
  ⟨Reachable.serve _ _ (Reachable.init 0), rfl,
   status_transitions_allowed exampleEnv uploadedWorld (.analyze 0 none)
     (Reachable.serve _ _ (Reachable.init 0))⟩

/-- C2: for every text without leading or trailing whitespace the heuristic
provider's `overallScore` is the weighted sum of the five section flags it
returns, three points per distinct vocabulary keyword found in the case-folded
text (at most 30) and 30 or 15 points for the token count, clamped to 100. -/
theorem analyzeWithMock_overallScore (toLowerCase : String → String) (now : Nat)
    (text : String) (h : noOuterWhitespace text) :
    (analyzeWithMock toLowerCase now text).overallScore =
      min 100
        (8 * flag (analyzeWithMock toLowerCase now text).sections.hasContact +
         8 * flag (analyzeWithMock toLowerCase now text).sections.hasSummary +
         10 * flag (analyzeWithMock toLowerCase now text).sections.hasExperience +
         7 * flag (analyzeWithMock toLowerCase now text).sections.hasEducation +
         7 * flag (analyzeWithMock toLowerCase now text).sections.hasSkills +
         min 30 (3 * distinctKeywordCount (toLowerCase text)) +
         (if 300 ≤ (wordTokens text).length ∧ (wordTokens text).length ≤ 900
          then 30 else 15)) := by
  have hw : (if mockWordCount text ≥ 300 ∧ mockWordCount text ≤ 900 then 30 else 15) =
      (if 300 ≤ (wordTokens text).length ∧ (wordTokens text).length ≤ 900
        then 30 else 15) := by
    by_cases hne : text.data = []
    · have h1 : mockWordCount text = 1 := by simp [mockWordCount, hne, splitWhitespace]
      have h2 : (wordTokens text).length = 0 := by simp [wordTokens, hne]
      rw [h1, h2]; simp
    · rw [splitWhitespace_length_eq_tokens text hne h]
  simp only [analyzeWithMock, mockScore]
  rw [hw, mockKeywords_length]
  congr 1
  cases (mockSections text).hasContact <;> cases (mockSections text).hasSummary <;>
    cases (mockSections text).hasExperience <;> cases (mockSections text).hasEducation <;>
    cases (mockSections text).hasSkills <;> simp [flag, Nat.mul_comm]

/-- The scoring contract applied to a short resume. -/
theorem analyzeWithMock_overallScore_witness :
    noOuterWhitespace "Email: x@y.com Skills: Python Docker" ∧
    (analyzeWithMock asciiLower 0 "Email: x@y.com Skills: Python Docker").overallScore =
      min 100
        (8 * flag (analyzeWithMock asciiLower 0
            "Email: x@y.com Skills: Python Docker").sections.hasContact +
         8 * flag (analyzeWithMock asciiLower 0
            "Email: x@y.com Skills: Python Docker").sections.hasSummary +
         10 * flag (analyzeWithMock asciiLower 0
            "Email: x@y.com Skills: Python Docker").sections.hasExperience +
         7 * flag (analyzeWithMock asciiLower 0
            "Email: x@y.com Skills: Python Docker").sections.hasEducation +
         7 * flag (analyzeWithMock asciiLower 0
            "Email: x@y.com Skills: Python Docker").sections.hasSkills +
         min 30 (3 * distinctKeywordCount (asciiLower "Email: x@y.com Skills: Python Docker")) +
         (if 300 ≤ (wordTokens "Email: x@y.com Skills: Python Docker").length ∧
            (wordTokens "Email: x@y.com Skills: Python Docker").length ≤ 900
          then 30 else 15)) :=
  ⟨by decide, analyzeWithMock_overallScore asciiLower 0 _ (by decide)⟩

/-- C6: when the configured provider is gemini, groq or ollama and its attempt
fails (the call throws, or its result cannot take the `analyzedAt` stamp), the
adapter calls the heuristic provider exactly once, on the same text, after the
primary call, and the adapter's outcome is the heuristic's outcome. -/
theorem analyzeResume_fallback {σ : Type} (P : Providers σ) (cfg : Config)
    (toLowerCase : String → String) (now : σ → Nat) (resumeText : String)
    (options : Option JVal) (s : σ) (e : JsError)
    (hcfg : toLowerCase (AI_PROVIDER cfg) = "gemini" ∨ toLowerCase (AI_PROVIDER cfg) = "groq" ∨
      toLowerCase (AI_PROVIDER cfg) = "ollama")
    (hmock : toLowerCase "mock" = "mock")
    (hfail : (P.get (dispatch (toLowerCase (AI_PROVIDER cfg))) resumeText s).1 = .error e ∨
      ∃ result, (P.get (dispatch (toLowerCase (AI_PROVIDER cfg))) resumeText s).1 = .ok result ∧
        stampAnalyzedAt (now (P.get (dispatch (toLowerCase (AI_PROVIDER cfg))) resumeText s).2)
          result = .error e) :
    (analyzeResume P cfg toLowerCase now resumeText options s).calls =
      [dispatch (toLowerCase (AI_PROVIDER cfg)), ProviderName.mock] ∧
    (analyzeResume P cfg toLowerCase now resumeText options s).calls.count ProviderName.mock = 1 ∧
    (analyzeResume P cfg toLowerCase now resumeText options s).outcome =
      (P.analyzeWithMock resumeText
        (P.get (dispatch (toLowerCase (AI_PROVIDER cfg))) resumeText s).2).1 ∧
    (analyzeResume P cfg toLowerCase now resumeText options s).ext =
      (P.analyzeWithMock resumeText
        (P.get (dispatch (toLowerCase (AI_PROVIDER cfg))) resumeText s).2).2 := by
  have hne : AI_PROVIDER cfg ≠ "mock" := by
    intro h
    rw [h, hmock] at hcfg
    revert hcfg
    decide
  have hprimary : dispatch (toLowerCase (AI_PROVIDER cfg)) ≠ ProviderName.mock := by
    rcases hcfg with h | h | h <;> rw [h] <;> decide
  have hcount : [dispatch (toLowerCase (AI_PROVIDER cfg)), ProviderName.mock].count
      ProviderName.mock = 1 := by
    simp [List.count_cons, hprimary]
  unfold analyzeResume
  dsimp only
  rcases hfail with h | ⟨result, h, hstamp⟩
  · rw [h]
    dsimp only
    rw [if_pos hne]
    exact ⟨rfl, hcount, rfl, rfl⟩
  · rw [h]
    dsimp only
    rw [hstamp]
    dsimp only
    rw [if_pos hne]
    exact ⟨rfl, hcount, rfl, rfl⟩

/-- The fallback for a gemini configuration without credentials. -/
theorem analyzeResume_fallback_witness :
    (exampleProviders.get (dispatch (asciiLower (AI_PROVIDER { AI_PROVIDER := some "Gemini" })))
        exampleText 0).1 =
      .error { message := "GEMINI_API_KEY not found in environment variables" } ∧
    (analyzeResume exampleProviders { AI_PROVIDER := some "Gemini" } asciiLower (fun _ => 0)
        exampleText none 0).calls = [ProviderName.gemini, ProviderName.mock] ∧
    (analyzeResume exampleProviders { AI_PROVIDER := some "Gemini" } asciiLower (fun _ => 0)
        exampleText none 0).outcome = .ok (analyzeWithMock asciiLower 0 exampleText).toJVal :=
  ⟨rfl,
   (analyzeResume_fallback exampleProviders { AI_PROVIDER := some "Gemini" } asciiLower
      (fun _ => 0) exampleText none 0 _ (Or.inl (by decide)) (by decide) (Or.inl rfl)).1,
   (analyzeResume_fallback exampleProviders { AI_PROVIDER := some "Gemini" } asciiLower
      (fun _ => 0) exampleText none 0 _ (Or.inl (by decide)) (by decide) (Or.inl rfl)).2.2.1⟩

/-- C7: for every configuration value under which the heuristic provider is the
one dispatched as primary (`mock`, any other letter case of it, or an unknown
name), and for every text, job description and state, the module's adapter
calls the heuristic provider exactly once and makes no fallback call; the
caller receives the outcome of that one call, which is the heuristic's result,
since the module's heuristic never throws, and the external state is as before. -/
theorem analyzeResume_heuristic_primary_once {σ : Type} (llm : Llm σ) (cfg : Config)
    (toLowerCase : String → String) (now : σ → Nat) (resumeText : String)
    (options : Option JVal) (s : σ)
    (hmock : dispatch (toLowerCase (AI_PROVIDER cfg)) = ProviderName.mock) :
    (analyzeResume (moduleProviders llm toLowerCase now) cfg toLowerCase now resumeText options
      s).calls = [ProviderName.mock] ∧
    (analyzeResume (moduleProviders llm toLowerCase now) cfg toLowerCase now resumeText options
      s).calls.count ProviderName.mock = 1 ∧
    (analyzeResume (moduleProviders llm toLowerCase now) cfg toLowerCase now resumeText options
      s).outcome = ((moduleProviders llm toLowerCase now).analyzeWithMock resumeText s).1 ∧
    (analyzeResume (moduleProviders llm toLowerCase now) cfg toLowerCase now resumeText options
      s).outcome = .ok (analyzeWithMock toLowerCase (now s) resumeText).toJVal ∧
    (analyzeResume (moduleProviders llm toLowerCase now) cfg toLowerCase now resumeText options
      s).ext = s := by
  have hrun : analyzeResume (moduleProviders llm toLowerCase now) cfg toLowerCase now resumeText
      options s =
      { outcome := .ok (analyzeWithMock toLowerCase (now s) resumeText).toJVal, ext := s,
        calls := [ProviderName.mock] } := by
    unfold analyzeResume
    dsimp only
    rw [hmock]
    rfl
  rw [hrun]
  exact ⟨rfl, rfl, rfl, rfl, rfl⟩

/-- The adapter under `AI_PROVIDER=MOCK`, which the switch sends to the
heuristic provider through its lower-cased value. -/
theorem analyzeResume_heuristic_primary_once_witness :
    dispatch (asciiLower (AI_PROVIDER { AI_PROVIDER := some "MOCK" })) = ProviderName.mock ∧
    AI_PROVIDER { AI_PROVIDER := some "MOCK" } ≠ "mock" ∧
    (analyzeResume (moduleProviders (llmAnswering missingFieldsJson) asciiLower (fun n => n))
      { AI_PROVIDER := some "MOCK" } asciiLower (fun n => n) exampleText none 3).calls =
        [ProviderName.mock] ∧
    (analyzeResume (moduleProviders (llmAnswering missingFieldsJson) asciiLower (fun n => n))
      { AI_PROVIDER := some "MOCK" } asciiLower (fun n => n) exampleText none 3).outcome =
        .ok (analyzeWithMock asciiLower 3 exampleText).toJVal :=
  ⟨by decide, by decide,
   (analyzeResume_heuristic_primary_once (llmAnswering missingFieldsJson)
      { AI_PROVIDER := some "MOCK" } asciiLower (fun n => n) exampleText none 3 (by decide)).1,
   (analyzeResume_heuristic_primary_once (llmAnswering missingFieldsJson)
      { AI_PROVIDER := some "MOCK" } asciiLower (fun n => n) exampleText none 3
      (by decide)).2.2.2.1⟩

/-- C8 (the code departs from the claim): for the non-numeric text `abc` the
page and the limit that List uses are `NaN`, not an integer of the stated range. -/
theorem pageOf_limitOf_nonNumeric :
    pageOf (some "abc") = JsNumber.nan ∧ limitOf (some "abc") = JsNumber.nan ∧
    ¬ (pageOf (some "abc")).IsIntegerAtLeast 1 ∧
    ¬ (limitOf (some "abc")).IsIntegerBetween 1 50 := by
  have h1 : pageOf (some "abc") = JsNumber.nan := rfl
  have h2 : limitOf (some "abc") = JsNumber.nan := rfl
  refine ⟨h1, h2, ?_, ?_⟩
  · rw [h1]; exact fun h => h
  · rw [h2]; exact fun h => h

/-- C9: for a page size between 1 and 50 the `totalPages` of List is the least
number of pages that hold `total` documents: `n * limit >= total`, no smaller
number does, and `n = 0` for an empty collection. -/
theorem totalPagesOf_least (total limit : Nat) (h1 : 1 ≤ limit) (_h50 : limit ≤ 50) :
    ∃ n : Nat, totalPagesOf total (JsNumber.fin limit) = JsNumber.fin n ∧
      total ≤ n * limit ∧ (∀ m : Nat, total ≤ m * limit → n ≤ m) ∧ (total = 0 → n = 0) := by
  have hpos : (0 : ℚ) < (limit : ℚ) := by exact_mod_cast h1
  have hne : (limit : ℚ) ≠ 0 := ne_of_gt hpos
  have hnonneg : (0 : ℚ) ≤ (total : ℚ) / (limit : ℚ) := by positivity
  refine ⟨⌈(total : ℚ) / (limit : ℚ)⌉₊, ?_, ?_, ?_, ?_⟩
  · simp only [totalPagesOf, JsNumber.div, hne, if_false, JsNumber.ceil]
    congr 1
    rw [← Int.natCast_ceil_eq_ceil hnonneg]
    simp
  · have := Nat.le_ceil ((total : ℚ) / (limit : ℚ))
    rw [div_le_iff₀ hpos] at this
    exact_mod_cast this
  · intro m hm
    apply Nat.ceil_le.2
    rw [div_le_iff₀ hpos]
    exact_mod_cast hm
  · intro h0
    simp [h0]

/-- The page count for 101 documents and pages of ten documents. -/
theorem totalPagesOf_least_witness :
    (1 ≤ 10 ∧ 10 ≤ 50) ∧
    ∃ n : Nat, totalPagesOf 101 (JsNumber.fin (10 : Nat)) = JsNumber.fin n ∧
      101 ≤ n * 10 ∧ (∀ m : Nat, 101 ≤ m * 10 → n ≤ m) ∧ (101 = 0 → n = 0) :=
  ⟨⟨by decide, by decide⟩, totalPagesOf_least 101 10 (by decide) (by decide)⟩

/-- C10: when the extraction fails during an upload (in a reachable world, after
the document was created), the call has created exactly one document, which
stays in the collection with status `failed`, the message of the extraction
error and no extracted text; the caller receives that same error, which carries
status 404, 500 or 422, and this is the status of the response. -/
theorem uploadResume_extraction_failure {σ : Type} (env : Env σ) (f : UploadedFile)
    (w : World σ) (err : JsError) (hreach : Reachable env w)
    (hvalid : createValidationErrors f.filename f.originalname f.path = [])
    (hfail : extractTextFromPDF env.fs w.ext f.path = .error err) :
    (uploadResume env (some f) w).outcome = .error err ∧
    (∃ created doc,
      (uploadResume env (some f) w).events = [Event.created created, Event.updated created doc] ∧
      (uploadResume env (some f) w).world.resumes = w.resumes ++ [doc] ∧
      doc._id = created._id ∧ (∀ r ∈ w.resumes, r._id ≠ doc._id) ∧
      doc.status = Status.failed ∧ doc.errorMessage = some err.message ∧
      doc.extractedText = "") ∧
    (∃ code, (code = 404 ∨ code = 500 ∨ code = 422) ∧ err.statusCode = some code ∧
      (respond env.config (uploadResume env (some f) w).outcome).statusCode = code) := by
  have hwf := reachable_wellFormed env w hreach
  obtain ⟨hout, hworld, hev⟩ := uploadResume_failed env f w err hvalid hwf.1 hfail
  refine ⟨hout, ⟨_, _, hev, by rw [hworld], rfl, ?_, rfl, rfl, rfl⟩, ?_⟩
  · intro r hr
    exact Nat.ne_of_lt (hwf.1 r hr)
  · obtain ⟨message, code, rfl, hcode⟩ := extractTextFromPDF_error env.fs w.ext f.path err hfail
    refine ⟨code, hcode, rfl, ?_⟩
    rw [hout]
    apply respond_appError
    rcases hcode with h | h | h <;> rw [h] <;> decide

/-- The failed upload of a file that is not on disk. -/
theorem uploadResume_extraction_failure_witness :
    Reachable exampleEnv emptyWorld ∧
    extractTextFromPDF exampleEnv.fs emptyWorld.ext missingFile.path =
      .error (AppError "PDF file not found on disk." 404) ∧
    (uploadResume exampleEnv (some missingFile) emptyWorld).outcome =
      .error (AppError "PDF file not found on disk." 404) ∧
    (respond exampleEnv.config
      (uploadResume exampleEnv (some missingFile) emptyWorld).outcome).statusCode = 404 ∧
    (uploadResume exampleEnv (some missingFile) emptyWorld).world.resumes.map
      (fun r => (r.status, r.errorMessage, r.extractedText)) =
        [(Status.failed, some "PDF file not found on disk.", "")] :=
  ⟨Reachable.init 0, rfl,
   (uploadResume_extraction_failure exampleEnv missingFile emptyWorld _ (Reachable.init 0)
      (by decide) rfl).1, rfl, rfl⟩

/-- C11: an upload request without a file, or with a file whose declared MIME
type is not exactly `application/pdf`, is answered with status 400 and leaves
the world as it was, without any effect; a file declared as `application/pdf`
passes the file filter. -/
theorem upload_rejections {σ : Type} (env : Env σ) (m : Multer σ) (g : IdGuard) (w : World σ) :
    ((respond env.config (route env m g (.postUpload none) w).outcome).statusCode = 400 ∧
      (route env m g (.postUpload none) w).world = w ∧
      (route env m g (.postUpload none) w).events = []) ∧
    (∀ p : FilePart, p.mimetype ≠ "application/pdf" →
      (respond env.config (route env m g (.postUpload (some p)) w).outcome).statusCode = 400 ∧
      (route env m g (.postUpload (some p)) w).world = w ∧
      (route env m g (.postUpload (some p)) w).events = []) ∧
    (∀ p : FilePart, p.mimetype = "application/pdf" → fileFilter p = .ok true) := by
  refine ⟨⟨respond_appError _ _ _ (by decide), rfl, rfl⟩, ?_, ?_⟩
  · intro p hp
    by_cases hfield : p.fieldname = "resume"
    · have hrun : route env m g (.postUpload (some p)) w =
          { outcome := .error (AppError "Only PDF files are allowed." 400), world := w,
            events := [] } := by
        simp [route, uploadSingle, hfield, fileFilter, hp]
      rw [hrun]
      exact ⟨respond_appError _ _ _ (by decide), rfl, rfl⟩
    · have hrun : route env m g (.postUpload (some p)) w =
          { outcome := .error (MulterError "LIMIT_UNEXPECTED_FILE" "Unexpected field"),
            world := w, events := [] } := by
        simp [route, uploadSingle, hfield]
      rw [hrun]
      exact ⟨rfl, rfl, rfl⟩
  · intro p hp
    simp [fileFilter, hp]

/-- The rejection of the text file of the upload test. -/
theorem upload_rejections_witness :
    textPart.mimetype ≠ "application/pdf" ∧
    (respond exampleEnv.config
      (route exampleEnv exampleMulter exampleGuard (.postUpload (some textPart))
        emptyWorld).outcome).statusCode = 400 ∧
    (route exampleEnv exampleMulter exampleGuard (.postUpload (some textPart))
      emptyWorld).world.resumes = [] :=
  ⟨by decide,
   ((upload_rejections exampleEnv exampleMulter exampleGuard emptyWorld).2.1 textPart
      (by decide)).1,
   congrArg World.resumes
     ((upload_rejections exampleEnv exampleMulter exampleGuard emptyWorld).2.1 textPart
       (by decide)).2.1⟩

/-- C12: the extraction fails exactly in four cases, checked in this order: the
file is missing (404), it cannot be read (500), the parser fails (422), the
trimmed text has fewer than 50 characters (422). Otherwise it succeeds with the
trimmed text (at least 50 characters, no outer whitespace), the number of its
whitespace-delimited non-empty tokens (at least one) and the parser's page
count, 0 when there is none. -/
theorem extractTextFromPDF_cases {σ : Type} (fs : FileSystem σ) (s : σ) (filePath : String) :
    (fs.existsSync s filePath = false →
      ∃ message, extractTextFromPDF fs s filePath = .error (AppError message 404)) ∧
    (fs.existsSync s filePath = true →
      (∀ e, fs.readFileSync s filePath = .error e →
        ∃ message, extractTextFromPDF fs s filePath = .error (AppError message 500)) ∧
      (∀ dataBuffer, fs.readFileSync s filePath = .ok dataBuffer →
        (∀ e, fs.pdfParse dataBuffer = .error e →
          ∃ message, extractTextFromPDF fs s filePath = .error (AppError message 422)) ∧
        (∀ parsed, fs.pdfParse dataBuffer = .ok parsed →
          (jsLength (trim (orElse parsed.text "")) < 50 →
            ∃ message, extractTextFromPDF fs s filePath = .error (AppError message 422)) ∧
          (50 ≤ jsLength (trim (orElse parsed.text "")) →
            extractTextFromPDF fs s filePath =
              .ok { text := trim (orElse parsed.text "")
                    pageCount := parsed.numpages.getD 0
                    wordCount := (wordTokens (trim (orElse parsed.text ""))).length } ∧
            noOuterWhitespace (trim (orElse parsed.text "")) ∧
            1 ≤ (wordTokens (trim (orElse parsed.text ""))).length)))) := by
  refine ⟨?_, ?_⟩
  · intro hex
    exact ⟨_, by simp [extractTextFromPDF, hex]; rfl⟩
  · intro hex
    refine ⟨?_, ?_⟩
    · intro e hread
      exact ⟨_, by simp [extractTextFromPDF, hex, hread]; rfl⟩
    · intro dataBuffer hread
      refine ⟨?_, ?_⟩
      · intro e hparse
        exact ⟨_, by simp [extractTextFromPDF, hex, hread, hparse]; rfl⟩
      · intro parsed hparse
        refine ⟨?_, ?_⟩
        · intro hshort
          exact ⟨_, by simp [extractTextFromPDF, hex, hread, hparse, hshort]; rfl⟩
        · intro hlong
          have hne : (trim (orElse parsed.text "")).isEmpty = false := by
            cases hE : (trim (orElse parsed.text "")).isEmpty with
            | false => rfl
            | true =>
              have hdata := (String.isEmpty_iff _).1 hE
              rw [hdata] at hlong
              simp [jsLength] at hlong
          have hnot : ¬ jsLength (trim (orElse parsed.text "")) < 50 := by omega
          have hok : extractTextFromPDF fs s filePath =
              .ok { text := trim (orElse parsed.text "")
                    pageCount := parsed.numpages.getD 0
                    wordCount := (wordTokens (trim (orElse parsed.text ""))).length } := by
            simp only [extractTextFromPDF, hex, hread, hparse, hne, hnot, Bool.not_true,
              Bool.false_eq_true, if_false, decide_False, Bool.or_self]
            rw [splitWhitespace_filter_eq_wordTokens]
          refine ⟨hok, trim_noOuterWhitespace _, ?_⟩
          have := (extractTextFromPDF_ok fs s filePath _ hok).2
          exact this

/-- The five outcomes of the extraction on the example file system. -/
theorem extractTextFromPDF_cases_witness :
    exampleFileSystem.existsSync 0 exampleFile.path = true ∧
    exampleFileSystem.readFileSync 0 exampleFile.path = .ok [] ∧
    extractTextFromPDF exampleFileSystem 0 exampleFile.path =
      .ok { text := exampleText, pageCount := 1, wordCount := 11 } ∧
    (∃ message, extractTextFromPDF exampleFileSystem 0 missingFile.path =
      .error (AppError message 404)) :=
  ⟨rfl, rfl,
   ((((extractTextFromPDF_cases exampleFileSystem 0 exampleFile.path).2 rfl).2 [] rfl).2
      { text := some ("  " ++ exampleText ++ "\n"), numpages := some 1 } rfl).2
        (by decide) |>.1,
   (extractTextFromPDF_cases exampleFileSystem 0 missingFile.path).1 rfl⟩

/-- C13 (the code departs from the claim): with the groq provider answering
`overallScore` 150 and `experienceLevel` "guru", Analyze succeeds, returns that
analysis to the caller and stores it on the document: the score is outside
0..100 and the level is none of the five allowed values. -/
theorem analyzeResumeById_unvalidated_result :
    (respond (llmEnv "groq" outOfRangeJson).config
      (analyzeResumeById (llmEnv "groq" outOfRangeJson) 0 none uploadedWorld).outcome).statusCode
        = 200 ∧
    ((analyzeResumeById (llmEnv "groq" outOfRangeJson) 0 none uploadedWorld).body?.bind
        analysisOfBody).bind (fun a => a.get? "overallScore") =
      some (JVal.num (JsNumber.fin 150)) ∧
    ((analyzeResumeById (llmEnv "groq" outOfRangeJson) 0 none uploadedWorld).body?.bind
        analysisOfBody).bind (fun a => a.get? "experienceLevel") = some (JVal.str "guru") ∧
    (analyzeResumeById (llmEnv "groq" outOfRangeJson) 0 none uploadedWorld).world.resumes.map
        (fun r => r.analysisResult.map (fun a => (a.overallScore, a.experienceLevel))) =
      [some (some (JsNumber.fin 150), "guru")] ∧
    "guru" ∉ ["entry", "mid", "senior", "executive", "unknown"] ∧
    ¬ (JsNumber.fin 150).IsIntegerBetween 0 100 := by
  refine ⟨by with_unfolding_all rfl, by with_unfolding_all rfl, by with_unfolding_all rfl,
    by with_unfolding_all rfl, by decide, ?_⟩
  rintro ⟨z, hz, _, h100⟩
  have : (z : ℚ) = 150 := hz.symm
  have hz' : z = 150 := by exact_mod_cast this
  omega

/-- C14 (the code departs from the claim): a response without `overallScore`
and `experienceLevel` is returned as the analysis by `analyzeWithGroq` and by
`analyzeWithOllama`, and the adapter configured for groq passes it on without
calling the heuristic provider; only `analyzeWithGemini` throws on it. -/
theorem analyzeWithGroq_accepts_missing_fields :
    propertyTruthy missingFieldsValue "overallScore" = false ∧
    propertyTruthy missingFieldsValue "experienceLevel" = false ∧
    (analyzeWithGroq (llmAnswering missingFieldsJson) exampleText 0).1 = .ok missingFieldsValue ∧
    (analyzeWithOllama (llmAnswering missingFieldsJson) exampleText 0).1 =
      .ok missingFieldsValue ∧
    (analyzeWithGemini (llmAnswering missingFieldsJson) exampleText 0).1 =
      .error { message := "Invalid response structure" } ∧
    (analyzeResume (llmEnv "groq" missingFieldsJson).providers
      (llmEnv "groq" missingFieldsJson).config asciiLower (fun _ => 1000) exampleText none
      0).calls = [ProviderName.groq] ∧
    (analyzeResume (llmEnv "groq" missingFieldsJson).providers
      (llmEnv "groq" missingFieldsJson).config asciiLower (fun _ => 1000) exampleText none
      0).outcome = .ok (missingFieldsValue.set "analyzedAt" (JVal.date 1000)) :=
  ⟨rfl, rfl, rfl, rfl, rfl, rfl, rfl⟩

/-- C15: for every error the global error handler sends a body whose `status`
is "fail" when the status code sent is 4xx and "error" when it is 5xx, with a
`message`; outside the development configuration the body has exactly the two
fields `status` and `message`. -/
theorem globalErrorHandler_shape (cfg : Config) (err : JsError) :
    (400 ≤ (globalErrorHandler cfg err).statusCode →
      (globalErrorHandler cfg err).statusCode < 500 →
      statusOfBody (globalErrorHandler cfg err) = some "fail") ∧
    (500 ≤ (globalErrorHandler cfg err).statusCode →
      (globalErrorHandler cfg err).statusCode < 600 →
      statusOfBody (globalErrorHandler cfg err) = some "error") ∧
    (∃ message, (globalErrorHandler cfg err).body.bind (fun b => b.get? "message") =
      some (JVal.str message)) ∧
    (cfg.NODE_ENV ≠ some "development" →
      ∃ status message, (globalErrorHandler cfg err).body =
        some (JVal.obj [("status", JVal.str status), ("message", JVal.str message)])) := by
  unfold globalErrorHandler statusOfBody
  cases errorMessageAndStatus cfg err with
  | mk message statusCode =>
    by_cases hdev : cfg.NODE_ENV = some "development"
    · simp only [hdev, if_true]
      refine ⟨?_, ?_, ⟨message, rfl⟩, fun h => absurd rfl h⟩
      · intro _ h5
        have : ¬ statusCode ≥ 500 := by omega
        simp only [this, if_false]
        rfl
      · intro h5 _
        have : statusCode ≥ 500 := h5
        simp only [this, if_true]
        rfl
    · simp only [hdev, if_false]
      refine ⟨?_, ?_, ⟨message, rfl⟩, fun _ => ⟨_, message, rfl⟩⟩
      · intro _ h5
        have : ¬ statusCode ≥ 500 := by omega
        simp only [this, if_false]
        rfl
      · intro h5 _
        have : statusCode ≥ 500 := h5
        simp only [this, if_true]
        rfl

/-- The body of the 404 of an unknown route, in the test configuration. -/
theorem globalErrorHandler_shape_witness :
    (globalErrorHandler { NODE_ENV := some "test" }
      (AppError "Route not found: GET /api/nonexistent" 404)).statusCode = 404 ∧
    statusOfBody (globalErrorHandler { NODE_ENV := some "test" }
      (AppError "Route not found: GET /api/nonexistent" 404)) = some "fail" ∧
    ∃ status message, (globalErrorHandler { NODE_ENV := some "test" }
      (AppError "Route not found: GET /api/nonexistent" 404)).body =
        some (JVal.obj [("status", JVal.str status), ("message", JVal.str message)]) :=
  ⟨rfl,
   (globalErrorHandler_shape { NODE_ENV := some "test" }
      (AppError "Route not found: GET /api/nonexistent" 404)).1 (by decide) (by decide),
   (globalErrorHandler_shape { NODE_ENV := some "test" }
      (AppError "Route not found: GET /api/nonexistent" 404)).2.2.2 (by decide)⟩

/-- C16: for every id that the guard judges malformed, the routes `GET /:id`,
`POST /:id/analyze` and `DELETE /:id` answer 400 and the handler is not run:
the world is unchanged and the request has no effect. -/
theorem malformed_id_rejected {σ : Type} (env : Env σ) (m : Multer σ) (g : IdGuard)
    (w : World σ) (id : String) (jobDescription : Option JVal) (h : g.isValid id = false) :
    ∀ req ∈ [HttpRequest.getOne id, HttpRequest.postAnalyze id jobDescription,
        HttpRequest.deleteOne id],
      (respond env.config (route env m g req w).outcome).statusCode = 400 ∧
      (route env m g req w).outcome = .error (AppError ("Invalid ID format: \"" ++ id ++ "\"") 400) ∧
      (route env m g req w).world = w ∧ (route env m g req w).events = [] := by
  have hrun : ∀ handler : Nat → World σ → Run σ, guarded g id w handler =
      { outcome := .error (AppError ("Invalid ID format: \"" ++ id ++ "\"") 400), world := w,
        events := [] } := by
    intro handler
    simp [guarded, validateMongoId, h]
  intro req hreq
  simp only [List.mem_cons, List.mem_singleton, List.not_mem_nil, or_false] at hreq
  rcases hreq with rfl | rfl | rfl <;>
    exact ⟨by simp only [route, hrun]; exact respond_appError _ _ _ (by decide),
      by simp only [route, hrun], by simp only [route, hrun], by simp only [route, hrun]⟩

/-- The three routes on the id of the test. -/
theorem malformed_id_rejected_witness :
    exampleGuard.isValid "not-an-id" = false ∧
    ∀ req ∈ [HttpRequest.getOne "not-an-id", HttpRequest.postAnalyze "not-an-id" none,
        HttpRequest.deleteOne "not-an-id"],
      (respond exampleEnv.config
        (route exampleEnv exampleMulter exampleGuard req uploadedWorld).outcome).statusCode = 400 ∧
      (route exampleEnv exampleMulter exampleGuard req uploadedWorld).outcome =
        .error (AppError ("Invalid ID format: \"" ++ "not-an-id" ++ "\"") 400) ∧
      (route exampleEnv exampleMulter exampleGuard req uploadedWorld).world = uploadedWorld ∧
      (route exampleEnv exampleMulter exampleGuard req uploadedWorld).events = [] :=
  ⟨by decide,
   malformed_id_rejected exampleEnv exampleMulter exampleGuard uploadedWorld "not-an-id" none
     (by decide)⟩

/-- C17: in a reachable world, Delete on an id without a document answers 404
and changes nothing; Delete on an existing document answers 204 with an empty
body, whatever the file system does with the file, and removes exactly the
documents with that id, the others staying as they are; afterwards GetById
answers 404 and a List with numeric page and limit does not send that id. -/
theorem deleteResume_outcome {σ : Type} (env : Env σ) (id : Nat) (w : World σ)
    (h : Reachable env w) :
    (Resume.findById w.resumes id = none →
      (respond env.config (deleteResume env id w).outcome).statusCode = 404 ∧
      (deleteResume env id w).world = w ∧ (deleteResume env id w).events = []) ∧
    (∀ r, Resume.findById w.resumes id = some r →
      (respond env.config (deleteResume env id w).outcome).statusCode = 204 ∧
      (respond env.config (deleteResume env id w).outcome).body = none ∧
      (deleteResume env id w).world.resumes = w.resumes.filter (fun x => x._id != id) ∧
      (respond env.config
        (getResumeById id (deleteResume env id w).world).outcome).statusCode = 404 ∧
      (∀ page limit, pageOf page ≠ JsNumber.nan → limitOf limit ≠ JsNumber.nan →
        ∃ body, (getAllResumes env page limit (deleteResume env id w).world).body? = some body ∧
          some (JVal.objectId id) ∉ listedIds body)) := by
  have huniq := reachable_uniqueIds env w h
  refine ⟨?_, ?_⟩
  · intro hfind
    have hrun : deleteResume env id w =
        { outcome := .error (AppError ("No resume found with ID: " ++ toString id) 404),
          world := w, events := [] } := by
      simp only [deleteResume, Resume.findByIdAndDelete, hfind]
    rw [hrun]
    exact ⟨respond_appError _ _ _ (by decide), rfl, rfl⟩
  · intro r hfind
    have hres : (deleteResume env id w).world.resumes =
        w.resumes.filter (fun x => x._id != id) := by
      rw [deleteResume_world_resumes, hfind]
      exact removeFirst_eq_filter id w.resumes huniq
    have hgone : ∀ x ∈ (deleteResume env id w).world.resumes, x._id ≠ id := by
      intro x hx
      rw [hres] at hx
      simpa using (List.mem_filter.1 hx).2
    have hout : (deleteResume env id w).outcome = .ok { statusCode := 204, body := none } := by
      simp only [deleteResume, Resume.findByIdAndDelete, hfind]
      split <;> rfl
    refine ⟨by rw [hout]; rfl, by rw [hout]; rfl, hres, ?_, ?_⟩
    · have hnone := (Resume.findById_eq_none_iff _ id).2 hgone
      simp only [getResumeById, hnone]
      exact respond_appError _ _ _ (by decide)
    · intro page limit hp hl
      obtain ⟨body, hbody, hids⟩ :=
        getAllResumes_listed env page limit (deleteResume env id w).world hp hl
      refine ⟨body, hbody, ?_⟩
      intro hmem
      obtain ⟨x, hx, heq⟩ := hids _ hmem
      have hxid : id = x._id := by
        injection heq with heq
        injection heq
      exact hgone x hx hxid.symm

/-- The deletion of the uploaded example document, and of an id that is not there. -/
theorem deleteResume_outcome_witness :
    Reachable exampleEnv uploadedWorld ∧
    (Resume.findById uploadedWorld.resumes 5 = none ∧
      (respond exampleEnv.config (deleteResume exampleEnv 5 uploadedWorld).outcome).statusCode
        = 404) ∧
    ((Resume.findById uploadedWorld.resumes 0).isSome = true ∧
      (respond exampleEnv.config (deleteResume exampleEnv 0 uploadedWorld).outcome).statusCode
        = 204 ∧
      (respond exampleEnv.config
        (getResumeById 0 (deleteResume exampleEnv 0 uploadedWorld).world).outcome).statusCode
          = 404) :=
  ⟨Reachable.serve _ _ (Reachable.init 0),
   ⟨rfl, ((deleteResume_outcome exampleEnv 5 uploadedWorld
      (Reachable.serve _ _ (Reachable.init 0))).1 rfl).1⟩,
   ⟨rfl, ((deleteResume_outcome exampleEnv 0 uploadedWorld
      (Reachable.serve _ _ (Reachable.init 0))).2
        (processedDocument 1000 exampleFile 0 ⟨exampleText, 1, 11⟩) rfl).1,
    ((deleteResume_outcome exampleEnv 0 uploadedWorld
      (Reachable.serve _ _ (Reachable.init 0))).2
        (processedDocument 1000 exampleFile 0 ⟨exampleText, 1, 11⟩) rfl).2.2.2.1⟩⟩

/-- C18: for every text that contains "Email: x@y.com", "Experience:" and
"Skills: Python Docker" and none of the markers senior, lead, entry, junior in
any letter case, the heuristic provider returns `hasContact` and
`hasExperience` true, keywords that include "python" and "docker", a score of
at least 31 and the level "mid" (for a case mapping with the two properties of
`CaseMappingLaws`). -/
theorem analyzeWithMock_scenario (toLowerCase : String → String) (now : Nat) (text : String)
    (hlaws : CaseMappingLaws toLowerCase)
    (hemail : includes text "Email: x@y.com" = true)
    (hexp : includes text "Experience:" = true)
    (hskills : includes text "Skills: Python Docker" = true)
    (hnone : ∀ m ∈ levelMarkers, includes (asciiLower text) m = false) :
    (analyzeWithMock toLowerCase now text).sections.hasContact = true ∧
    (analyzeWithMock toLowerCase now text).sections.hasExperience = true ∧
    "python" ∈ (analyzeWithMock toLowerCase now text).keywords ∧
    "docker" ∈ (analyzeWithMock toLowerCase now text).keywords ∧
    31 ≤ (analyzeWithMock toLowerCase now text).overallScore ∧
    (analyzeWithMock toLowerCase now text).experienceLevel = "mid" := by
  have part : ∀ (word p : String), includes text word = true →
      includes (asciiLower word) p = true → includes (asciiLower text) p = true :=
    fun word p h hp => includes_of_part _ _ _ (includes_asciiLower text word h) hp
  have hC : (mockSections text).hasContact = true := by
    have := part "Email: x@y.com" "email" hemail (by decide)
    simp only [mockSections, testI, List.any_cons]
    rw [show (⟨text.data.map Char.toLower⟩ : String) = asciiLower text from rfl, this]
    rfl
  have hE : (mockSections text).hasExperience = true := by
    have := part "Experience:" "experience" hexp (by decide)
    simp only [mockSections, testI, List.any_cons]
    rw [show (⟨text.data.map Char.toLower⟩ : String) = asciiLower text from rfl, this]
    rfl
  have hS : (mockSections text).hasSkills = true := by
    have := part "Skills: Python Docker" "skills" hskills (by decide)
    simp only [mockSections, testI, List.any_cons]
    rw [show (⟨text.data.map Char.toLower⟩ : String) = asciiLower text from rfl, this]
    rfl
  have hkw : ∀ k : String, k ∈ TECH_KW ++ SOFT_KW → asciiLowerWord k →
      includes (asciiLower "Skills: Python Docker") k = true →
      k ∈ (analyzeWithMock toLowerCase now text).keywords := by
    intro k hk hword hin
    have h1 := hlaws.keeps text k hword (part "Skills: Python Docker" k hskills hin)
    show k ∈ (mockKeywords (toLowerCase text)).eraseDups
    rw [mem_eraseDups]
    exact List.mem_filter.2 ⟨hk, h1⟩
  have hmark : ∀ m ∈ levelMarkers,
      includes (asciiLower (toLowerCase text)) m = false := by
    intro m hm
    cases h : includes (asciiLower (toLowerCase text)) m with
    | false => rfl
    | true =>
      have := hlaws.markers text m hm h
      rw [hnone m hm] at this
      cases this
  refine ⟨hC, hE, hkw "python" (by decide) (by unfold asciiLowerWord; decide) (by decide),
    hkw "docker" (by decide) (by unfold asciiLowerWord; decide) (by decide), ?_, ?_⟩
  · show 31 ≤ min 100 (mockScore (mockSections text) (mockKeywords (toLowerCase text))
      (mockWordCount text))
    simp only [mockScore, hC, hE, hS, if_true]
    split_ifs <;> omega
  · show (if testI ["senior", "lead"] (toLowerCase text) then "senior"
      else if testI ["entry", "junior"] (toLowerCase text) then "entry" else "mid") = "mid"
    have h1 : testI ["senior", "lead"] (toLowerCase text) = false := by
      simp only [testI, List.any_cons, List.any_nil]
      rw [show (⟨(toLowerCase text).data.map Char.toLower⟩ : String) =
        asciiLower (toLowerCase text) from rfl,
        hmark "senior" (by decide), hmark "lead" (by decide)]
      rfl
    have h2 : testI ["entry", "junior"] (toLowerCase text) = false := by
      simp only [testI, List.any_cons, List.any_nil]
      rw [show (⟨(toLowerCase text).data.map Char.toLower⟩ : String) =
        asciiLower (toLowerCase text) from rfl,
        hmark "entry" (by decide), hmark "junior" (by decide)]
      rfl
    rw [h1, h2]
    rfl

/-- The scenario on the three lines of the end-to-end test. -/
theorem analyzeWithMock_scenario_witness :
    CaseMappingLaws asciiLower ∧
    includes "Email: x@y.com\nExperience: ...\nSkills: Python Docker" "Email: x@y.com" = true ∧
    (∀ m ∈ levelMarkers,
      includes (asciiLower "Email: x@y.com\nExperience: ...\nSkills: Python Docker") m = false) ∧
    (analyzeWithMock asciiLower 0
      "Email: x@y.com\nExperience: ...\nSkills: Python Docker").experienceLevel = "mid" ∧
    31 ≤ (analyzeWithMock asciiLower 0
      "Email: x@y.com\nExperience: ...\nSkills: Python Docker").overallScore :=
  ⟨asciiLower_laws, by decide, by decide,
   (analyzeWithMock_scenario asciiLower 0
      "Email: x@y.com\nExperience: ...\nSkills: Python Docker" asciiLower_laws (by decide)
      (by decide) (by decide) (by decide)).2.2.2.2.2,
   (analyzeWithMock_scenario asciiLower 0
      "Email: x@y.com\nExperience: ...\nSkills: Python Docker" asciiLower_laws (by decide)
      (by decide) (by decide) (by decide)).2.2.2.2.1⟩

/-- C19: for a text `s` without backticks, the cleaning of each remote provider
maps `s` fenced with the `json` fence, `s` fenced with the bare fence and `s`
itself to the trimmed `s`; so the fenced forms parse to the same value as the
bare text. -/
theorem clean_fenced (s : String) (h : noBacktick s) :
    (cleanPlain ("```json\n" ++ s ++ "\n```") = trim s ∧
      cleanPlain ("```\n" ++ s ++ "\n```") = trim s ∧ cleanPlain s = trim s) ∧
    (cleanGemini ("```json\n" ++ s ++ "\n```") = trim s ∧
      cleanGemini ("```\n" ++ s ++ "\n```") = trim s ∧ cleanGemini s = trim s) ∧
    (∀ parse : String → Except JsError JVal,
      parse (cleanPlain ("```json\n" ++ s ++ "\n```")) = parse (cleanPlain s) ∧
      parse (cleanPlain ("```\n" ++ s ++ "\n```")) = parse (cleanPlain s) ∧
      parse (cleanGemini ("```json\n" ++ s ++ "\n```")) = parse (cleanGemini s) ∧
      parse (cleanGemini ("```\n" ++ s ++ "\n```")) = parse (cleanGemini s)) := by
  have e1 : "```json".data = Char.ofNat 96 :: [Char.ofNat 96, Char.ofNat 96, 'j', 's', 'o', 'n'] := by
    decide
  have e2 : "```".data = Char.ofNat 96 :: [Char.ofNat 96, Char.ofNat 96] := by decide
  have hws : isWhiteSpace '\n' = true := by decide
  have hbare : ∀ l : List Char, (∀ c ∈ l, isBacktick c = false) →
      trimChars (removeFenceAux "```".data 0 false (removeFenceAux "```json".data 0 false l)) =
        trimChars l := by
    intro l hl
    rw [e1, removeFenceAux_noBacktick_self _ l hl, e2, removeFenceAux_noBacktick_self _ l hl]
  have hp1 : cleanPlain ("```json\n" ++ s ++ "\n```") = trim s := by
    simp only [cleanPlain, removeFence, trim, String.data_append]
    rw [removeFence_jsonFenced s.data h, trimChars_append_whitespace _ _ hws]
  have hp2 : cleanPlain ("```\n" ++ s ++ "\n```") = trim s := by
    simp only [cleanPlain, removeFence, trim, String.data_append]
    rw [removeFence_bareFenced s.data h, trimChars_append_whitespace _ _ hws]
  have hp3 : cleanPlain s = trim s := by
    simp only [cleanPlain, removeFence, trim]
    rw [hbare s.data h]
  have htrim1 : trimChars ("```json\n".data ++ s.data ++ "\n```".data) =
      "```json\n".data ++ s.data ++ "\n```".data := by
    apply trimChars_eq_self
    · have : ("```json\n".data ++ s.data ++ "\n```".data).head? = some (Char.ofNat 96) := by
        simp [show "```json\n".data =
          [Char.ofNat 96, Char.ofNat 96, Char.ofNat 96, 'j', 's', 'o', 'n', '\n'] by decide]
      rw [this]; decide
    · have : ("```json\n".data ++ s.data ++ "\n```".data).getLast? = some (Char.ofNat 96) := by
        rw [List.getLast?_append,
          show "\n```".data = ['\n', Char.ofNat 96, Char.ofNat 96, Char.ofNat 96] by decide]
        rfl
      rw [this]; decide
  have htrim2 : trimChars ("```\n".data ++ s.data ++ "\n```".data) =
      "```\n".data ++ s.data ++ "\n```".data := by
    apply trimChars_eq_self
    · have : ("```\n".data ++ s.data ++ "\n```".data).head? = some (Char.ofNat 96) := by
        simp [show "```\n".data = [Char.ofNat 96, Char.ofNat 96, Char.ofNat 96, '\n'] by decide]
      rw [this]; decide
    · have : ("```\n".data ++ s.data ++ "\n```".data).getLast? = some (Char.ofNat 96) := by
        rw [List.getLast?_append,
          show "\n```".data = ['\n', Char.ofNat 96, Char.ofNat 96, Char.ofNat 96] by decide]
        rfl
      rw [this]; decide
  have hg1 : cleanGemini ("```json\n" ++ s ++ "\n```") = trim s := by
    simp only [cleanGemini, removeFence, trim, String.data_append]
    rw [htrim1, removeFence_jsonFenced s.data h, trimChars_append_whitespace _ _ hws]
  have hg2 : cleanGemini ("```\n" ++ s ++ "\n```") = trim s := by
    simp only [cleanGemini, removeFence, trim, String.data_append]
    rw [htrim2, removeFence_bareFenced s.data h, trimChars_append_whitespace _ _ hws]
  have hg3 : cleanGemini s = trim s := by
    simp only [cleanGemini, removeFence, trim]
    rw [hbare _ (trimChars_noBacktick s.data h), trimChars_idem]
  refine ⟨⟨hp1, hp2, hp3⟩, ⟨hg1, hg2, hg3⟩, ?_⟩
  intro parse
  rw [hp1, hp2, hp3, hg1, hg2, hg3]
  exact ⟨rfl, rfl, rfl, rfl⟩

/-- The cleaning of a fenced object. -/
theorem clean_fenced_witness :
    noBacktick missingFieldsJson ∧
    cleanPlain ("```json\n" ++ missingFieldsJson ++ "\n```") = trim missingFieldsJson ∧
    cleanGemini ("```\n" ++ missingFieldsJson ++ "\n```") = trim missingFieldsJson ∧
    exampleJsonParse (cleanPlain ("```json\n" ++ missingFieldsJson ++ "\n```")) =
      exampleJsonParse (cleanPlain missingFieldsJson) :=
  ⟨by unfold noBacktick; decide,
   (clean_fenced missingFieldsJson (by unfold noBacktick; decide)).1.1,
   (clean_fenced missingFieldsJson (by unfold noBacktick; decide)).2.1.2.1,
   ((clean_fenced missingFieldsJson (by unfold noBacktick; decide)).2.2 exampleJsonParse).1⟩

set_option maxRecDepth 20000 in
/-- C20 (the code departs from the claim): a Gemini response that has the
requested structure and an `overallScore` of 0 parses, yet `analyzeWithGemini`
throws "Invalid response structure" on it, and the adapter falls back to the
heuristic provider instead of returning it. -/
theorem analyzeWithGemini_rejects_zero_score :
    exampleJsonParse (cleanGemini zeroScoreJson) = .ok zeroScoreValue ∧
    zeroScoreValue.get? "overallScore" = some (JVal.num (JsNumber.fin 0)) ∧
    (analyzeWithGemini (llmAnswering zeroScoreJson) exampleText 0).1 =
      .error { message := "Invalid response structure" } ∧
    (analyzeResume (llmEnv "gemini" zeroScoreJson).providers
      (llmEnv "gemini" zeroScoreJson).config asciiLower (fun _ => 1000) exampleText none
      0).calls = [ProviderName.gemini, ProviderName.mock] ∧
    (analyzeResume (llmEnv "gemini" zeroScoreJson).providers
      (llmEnv "gemini" zeroScoreJson).config asciiLower (fun _ => 1000) exampleText none
      0).outcome = .ok (analyzeWithMock asciiLower 1000 exampleText).toJVal := by
  refine ⟨rfl, rfl, by with_unfolding_all rfl, rfl, by with_unfolding_all rfl⟩

/-- C21: for every text the seven components of the heuristic score add up to
at least 15 and at most 100, so the final `Math.min(100, score)` leaves the sum
as it is, and `overallScore` is an integer between 15 and 100. -/
theorem analyzeWithMock_score_bounds (toLowerCase : String → String) (now : Nat)
    (text : String) :
    15 ≤ (analyzeWithMock toLowerCase now text).overallScore ∧
    (analyzeWithMock toLowerCase now text).overallScore ≤ 100 ∧
    mockScore (mockSections text) (mockKeywords (toLowerCase text)) (mockWordCount text) ≤ 100 ∧
    (analyzeWithMock toLowerCase now text).overallScore =
      mockScore (mockSections text) (mockKeywords (toLowerCase text)) (mockWordCount text) ∧
    (JsNumber.fin ((analyzeWithMock toLowerCase now text).overallScore : ℚ)).IsIntegerBetween
      15 100 := by
  have hlo : 15 ≤ mockScore (mockSections text) (mockKeywords (toLowerCase text))
      (mockWordCount text) := by
    simp only [mockScore]
    split_ifs <;> omega
  have hhi : mockScore (mockSections text) (mockKeywords (toLowerCase text))
      (mockWordCount text) ≤ 100 := by
    simp only [mockScore]
    split_ifs <;> omega
  have heq : (analyzeWithMock toLowerCase now text).overallScore =
      mockScore (mockSections text) (mockKeywords (toLowerCase text)) (mockWordCount text) := by
    show min 100 _ = _
    exact Nat.min_eq_right hhi
  refine ⟨by rw [heq]; exact hlo, by rw [heq]; exact hhi, hhi, heq, ?_⟩
  refine ⟨((analyzeWithMock toLowerCase now text).overallScore : ℤ), by push_cast; rfl, ?_, ?_⟩
  · rw [heq]; exact_mod_cast hlo
  · rw [heq]; exact_mod_cast hhi

/-- C22: the job description has no influence on the analysis. For every
providers, configuration, text and state, the adapter makes the same run for
any two job descriptions (the same provider calls on the same text, the same
outcome), and so does the analyze handler; when the heuristic provider is
selected, the results for two job descriptions, even at different times, agree
on the score, the level, the keywords, the sections and the three lists. -/
theorem jobDescription_no_influence {σ : Type} (P : Providers σ) (cfg : Config)
    (toLowerCase : String → String) (now : σ → Nat) (resumeText : String)
    (jd1 jd2 : Option JVal) :
    (∀ s, analyzeResume P cfg toLowerCase now resumeText jd1 s =
      analyzeResume P cfg toLowerCase now resumeText jd2 s) ∧
    (∀ (env : Env σ) (id : Nat) (w : World σ),
      analyzeResumeById env id jd1 w = analyzeResumeById env id jd2 w) ∧
    (∀ (llm : Llm σ) (s1 s2 : σ), dispatch (toLowerCase (AI_PROVIDER cfg)) = ProviderName.mock →
      (analyzeResume (moduleProviders llm toLowerCase now) cfg toLowerCase now resumeText jd1
        s1).outcome = .ok (analyzeWithMock toLowerCase (now s1) resumeText).toJVal ∧
      (analyzeResume (moduleProviders llm toLowerCase now) cfg toLowerCase now resumeText jd2
        s2).outcome = .ok (analyzeWithMock toLowerCase (now s2) resumeText).toJVal ∧
      (analyzeWithMock toLowerCase (now s2) resumeText).overallScore =
        (analyzeWithMock toLowerCase (now s1) resumeText).overallScore ∧
      (analyzeWithMock toLowerCase (now s2) resumeText).experienceLevel =
        (analyzeWithMock toLowerCase (now s1) resumeText).experienceLevel ∧
      (analyzeWithMock toLowerCase (now s2) resumeText).keywords =
        (analyzeWithMock toLowerCase (now s1) resumeText).keywords ∧
      (analyzeWithMock toLowerCase (now s2) resumeText).sections =
        (analyzeWithMock toLowerCase (now s1) resumeText).sections ∧
      (analyzeWithMock toLowerCase (now s2) resumeText).strengths =
        (analyzeWithMock toLowerCase (now s1) resumeText).strengths ∧
      (analyzeWithMock toLowerCase (now s2) resumeText).weaknesses =
        (analyzeWithMock toLowerCase (now s1) resumeText).weaknesses ∧
      (analyzeWithMock toLowerCase (now s2) resumeText).suggestions =
        (analyzeWithMock toLowerCase (now s1) resumeText).suggestions) := by
  refine ⟨fun _ => rfl, fun _ _ _ => rfl, ?_⟩
  intro llm s1 s2 hmock
  have hrun : ∀ (jd : Option JVal) (s : σ),
      (analyzeResume (moduleProviders llm toLowerCase now) cfg toLowerCase now resumeText jd
        s).outcome = .ok (analyzeWithMock toLowerCase (now s) resumeText).toJVal := by
    intro jd s
    unfold analyzeResume
    dsimp only
    rw [hmock]
    rfl
  exact ⟨hrun jd1 s1, hrun jd2 s2, rfl, rfl, rfl, rfl, rfl, rfl, rfl⟩

/-- The analysis of the example text under two job descriptions. -/
theorem jobDescription_no_influence_witness :
    dispatch (asciiLower (AI_PROVIDER { AI_PROVIDER := some "mock" })) = ProviderName.mock ∧
    (analyzeResume (moduleProviders (llmAnswering missingFieldsJson) asciiLower (fun n => n))
      { AI_PROVIDER := some "mock" } asciiLower (fun n => n) exampleText
      (some (JVal.str "Looking for a Node.js developer")) 7).outcome =
        .ok (analyzeWithMock asciiLower 7 exampleText).toJVal ∧
    (analyzeResume (moduleProviders (llmAnswering missingFieldsJson) asciiLower (fun n => n))
      { AI_PROVIDER := some "mock" } asciiLower (fun n => n) exampleText none 9).outcome =
        .ok (analyzeWithMock asciiLower 9 exampleText).toJVal ∧
    (analyzeWithMock asciiLower 9 exampleText).overallScore =
      (analyzeWithMock asciiLower 7 exampleText).overallScore :=
  ⟨by decide,
   ((jobDescription_no_influence (moduleProviders (llmAnswering missingFieldsJson) asciiLower
      (fun n => n)) { AI_PROVIDER := some "mock" } asciiLower (fun n => n) exampleText
      (some (JVal.str "Looking for a Node.js developer")) none).2.2
        (llmAnswering missingFieldsJson) 7 9 (by decide)).1,
   ((jobDescription_no_influence (moduleProviders (llmAnswering missingFieldsJson) asciiLower
      (fun n => n)) { AI_PROVIDER := some "mock" } asciiLower (fun n => n) exampleText
      (some (JVal.str "Looking for a Node.js developer")) none).2.2
        (llmAnswering missingFieldsJson) 7 9 (by decide)).2.1,
   ((jobDescription_no_influence (moduleProviders (llmAnswering missingFieldsJson) asciiLower
      (fun n => n)) { AI_PROVIDER := some "mock" } asciiLower (fun n => n) exampleText
      (some (JVal.str "Looking for a Node.js developer")) none).2.2
        (llmAnswering missingFieldsJson) 7 9 (by decide)).2.2.1⟩

end ResumeAnalyzer
